import Mathlib

/-!
Shallow embedding of the emb.rs bitfield framework (`src/embrs/src/bits.rs`)
and the STM32F4 RCC clock-tree driver (`src/embrs/src/stm32f4/rcc/mod.rs`,
`src/embrs/src/stm32f4/rcc/raw.rs`, `src/embrs/src/stm32f4/flash.rs`).

Machine integers (`u32`) are modelled as `Nat` with explicit `% 2^32` /
masking where the Rust code relies on 32-bit semantics.  Fallible Rust code
(`BitsResult<T>`) is modelled with `Except BadBits`; panicking code
(`from_bits_total`'s `unreachable!()` branch, `enable_clock`'s `panic!`)
is modelled with `Option`, `none` standing for the panic.
-/

namespace Embrs

/-- Error type indicating that some bits read from the hardware were not
valid for the expected type (`BadBits` in `bits.rs`). -/
structure BadBits where
  bits : Nat
deriving DecidableEq, Repr

/-- Result type for `BadBits` (`BitsResult<T> = Result<T, BadBits>`). -/
abbrev BitsResult (α : Type) : Type := Except BadBits α

/-- `impl FromBits for bool`: maps 0 to `false` and 1 to `true`, anything
else to `BadBits`. -/
def bool_from_bits (bits : Nat) : BitsResult Bool :=
  match bits with
  | 0 => .ok false
  | 1 => .ok true
  | _ => .error ⟨bits⟩

/-- `impl FromBitsTotal for bool`: maps 0 to `false` and 1 to `true`;
the `unreachable!()` branch is modelled as `none`. -/
def bool_from_bits_total (bits : Nat) : Option Bool :=
  match bits with
  | 0 => some false
  | 1 => some true
  | _ => none

/-- `impl IntoBits for bool`. -/
def bool_into_bits (b : Bool) : Nat :=
  match b with
  | false => 0
  | true => 1

/-- `impl FromBitsTotal for u8`: identity on 0..=255, `unreachable!()`
(modelled as `none`) above. -/
def u8_from_bits_total (bits : Nat) : Option Nat :=
  if bits > 255 then none else some bits

/-- `impl FromBitsTotal for u32`: the identity map (all registers in this
development are 32 bits wide, so the extracted bits always fit). -/
def u32_from_bits_total (bits : Nat) : Option Nat :=
  some bits

/-- `impl IntoBits for u8` / `impl IntoBits for u32`: widening casts. -/
def uint_into_bits (v : Nat) : Nat := v

/-- The field mask computed by both `bitfield_extract` and
`bitfield_replace` in `bits.rs`: `width` low bits set, where the
`width < 32` guard keeps the `1 << width` from overflowing in the
maximal-width case (`!0` on `u32` is `2^32 - 1`). -/
def bitfield_mask (hi lo : Nat) : Nat :=
  if hi - lo + 1 < 32 then (1 <<< (hi - lo + 1)) - 1 else 2 ^ 32 - 1

/-- `bitfield_extract(v, hi, lo)` from `bits.rs`: extracts bits `hi`
through `lo` (inclusive) of the 32-bit word `v`. -/
def bitfield_extract (v : Nat) (hi lo : Nat) : Nat :=
  (v >>> lo) &&& bitfield_mask hi lo

/-- `bitfield_replace(orig, hi, lo, new)` from `bits.rs`: replaces bits
`hi` through `lo` (inclusive) of `orig` with the same number of low-order
bits of `new`.  Rust's `!` on `u32` is complement within 32 bits, i.e.
xor with `2^32 - 1`. -/
def bitfield_replace (orig : Nat) (hi lo : Nat) (new : Nat) : Nat :=
  (orig &&& ((2 ^ 32 - 1) ^^^ (bitfield_mask hi lo <<< lo)))
    ||| ((new &&& bitfield_mask hi lo) <<< lo)

/-! ### Bit-level characterization of extract/replace -/

theorem bitfield_mask_spec (hi lo : Nat) (h : hi ≤ 31) :
    bitfield_mask hi lo = 2 ^ (hi - lo + 1) - 1 := by
  unfold bitfield_mask
  split
  · simp [Nat.shiftLeft_eq]
  · have h32 : hi - lo + 1 = 32 := by omega
    rw [h32]

theorem testBit_bitfield_extract (v hi lo i : Nat) (h : hi ≤ 31) :
    (bitfield_extract v hi lo).testBit i
      = (decide (i < hi - lo + 1) && v.testBit (lo + i)) := by
  unfold bitfield_extract
  rw [bitfield_mask_spec hi lo h]
  simp only [Nat.testBit_and, Nat.testBit_shiftRight,
    Nat.testBit_two_pow_sub_one]
  exact Bool.and_comm _ _

theorem bitfield_extract_lt (v hi lo : Nat) (h : hi ≤ 31) :
    bitfield_extract v hi lo < 2 ^ (hi - lo + 1) := by
  unfold bitfield_extract
  rw [bitfield_mask_spec hi lo h]
  have h1 : (v >>> lo) &&& (2 ^ (hi - lo + 1) - 1) ≤ 2 ^ (hi - lo + 1) - 1 :=
    Nat.and_le_right
  have h2 : 0 < 2 ^ (hi - lo + 1) := Nat.two_pow_pos _
  omega

theorem testBit_bitfield_replace (orig hi lo new i : Nat)
    (hlo : lo ≤ hi) (hhi : hi ≤ 31) :
    (bitfield_replace orig hi lo new).testBit i
      = if lo ≤ i ∧ i ≤ hi then new.testBit (i - lo)
        else (orig.testBit i && decide (i < 32)) := by
  unfold bitfield_replace
  rw [bitfield_mask_spec hi lo hhi]
  simp only [Nat.testBit_or, Nat.testBit_and, Nat.testBit_xor,
    Nat.testBit_shiftLeft, Nat.testBit_two_pow_sub_one]
  by_cases hge : lo ≤ i
  · by_cases hle : i ≤ hi
    · have h1 : i - lo < hi - lo + 1 := by omega
      have h2 : i < 32 := by omega
      simp [hge, hle, h1, h2]
    · have h1 : ¬(i - lo < hi - lo + 1) := by omega
      by_cases h2 : i < 32 <;>
        simp [hge, hle, h1, h2]
  · have h1 : ¬(lo ≤ i) := hge
    by_cases h2 : i < 32 <;>
      simp [h1, h2, show ¬(lo ≤ i ∧ i ≤ hi) from fun hc => h1 hc.1]

theorem bitfield_replace_lt (orig hi lo new : Nat)
    (hlo : lo ≤ hi) (hhi : hi ≤ 31) :
    bitfield_replace orig hi lo new < 2 ^ 32 := by
  unfold bitfield_replace
  rw [bitfield_mask_spec hi lo hhi]
  have hm : (2 ^ (hi - lo + 1) - 1) <<< lo < 2 ^ 32 := by
    rw [Nat.shiftLeft_eq]
    have h1 : hi - lo + 1 + lo = hi + 1 := by omega
    calc (2 ^ (hi - lo + 1) - 1) * 2 ^ lo
        < 2 ^ (hi - lo + 1) * 2 ^ lo := by
          have hp := Nat.two_pow_pos (hi - lo + 1)
          have hq := Nat.two_pow_pos lo
          exact Nat.mul_lt_mul_of_lt_of_le (by omega) (le_refl _) hq
      _ = 2 ^ (hi + 1) := by rw [← Nat.pow_add, h1]
      _ ≤ 2 ^ 32 := Nat.pow_le_pow_right (by omega) (by omega)
  apply Nat.or_lt_two_pow
  · exact lt_of_le_of_lt Nat.and_le_right
      (Nat.xor_lt_two_pow (by norm_num) hm)
  · apply lt_of_le_of_lt _ hm
    rw [Nat.shiftLeft_eq, Nat.shiftLeft_eq]
    exact Nat.mul_le_mul_right _ Nat.and_le_right

theorem testBit_eq_false_of_lt_32 (x i : Nat) (hx : x < 2 ^ 32)
    (hi : 32 ≤ i) : x.testBit i = false :=
  Nat.testBit_lt_two_pow
    (lt_of_lt_of_le hx (Nat.pow_le_pow_right (by omega) hi))

/-- Reading back a field that was just written returns the written value
truncated to the field width. -/
theorem bitfield_extract_replace_same (v hi lo x : Nat)
    (hlo : lo ≤ hi) (hhi : hi ≤ 31) :
    bitfield_extract (bitfield_replace v hi lo x) hi lo
      = x % 2 ^ (hi - lo + 1) := by
  apply Nat.eq_of_testBit_eq
  intro i
  rw [testBit_bitfield_extract _ _ _ _ hhi, Nat.testBit_mod_two_pow,
    testBit_bitfield_replace _ _ _ _ _ hlo hhi]
  by_cases h1 : i < hi - lo + 1
  · have h2 : lo ≤ lo + i ∧ lo + i ≤ hi := by omega
    simp [h1, h2, Nat.add_sub_cancel_left]
  · simp [h1]

theorem bitfield_extract_replace_of_lt (v hi lo x : Nat)
    (hlo : lo ≤ hi) (hhi : hi ≤ 31) (hx : x < 2 ^ (hi - lo + 1)) :
    bitfield_extract (bitfield_replace v hi lo x) hi lo = x := by
  rw [bitfield_extract_replace_same v hi lo x hlo hhi, Nat.mod_eq_of_lt hx]

/-- Writing one field does not disturb reads of a disjoint field. -/
theorem bitfield_extract_replace_disjoint (v hi lo x hi2 lo2 : Nat)
    (hlo : lo ≤ hi) (hhi : hi ≤ 31) (hlo2 : lo2 ≤ hi2) (hhi2 : hi2 ≤ 31)
    (hdisj : hi2 < lo ∨ hi < lo2) :
    bitfield_extract (bitfield_replace v hi lo x) hi2 lo2
      = bitfield_extract v hi2 lo2 := by
  apply Nat.eq_of_testBit_eq
  intro i
  rw [testBit_bitfield_extract _ _ _ _ hhi2,
    testBit_bitfield_extract _ _ _ _ hhi2,
    testBit_bitfield_replace _ _ _ _ _ hlo hhi]
  by_cases h1 : i < hi2 - lo2 + 1
  · have h2 : ¬(lo ≤ lo2 + i ∧ lo2 + i ≤ hi) := by omega
    have h3 : lo2 + i < 32 := by omega
    simp [h1, h2, h3]
  · simp [h1]

/-- Replacing a field with its own extracted content is the identity on
32-bit words. -/
theorem bitfield_replace_extract_self (raw hi lo : Nat)
    (hraw : raw < 2 ^ 32) (hlo : lo ≤ hi) (hhi : hi ≤ 31) :
    bitfield_replace raw hi lo (bitfield_extract raw hi lo) = raw := by
  apply Nat.eq_of_testBit_eq
  intro i
  rw [testBit_bitfield_replace _ _ _ _ _ hlo hhi]
  by_cases h1 : lo ≤ i ∧ i ≤ hi
  · rw [if_pos h1, testBit_bitfield_extract _ _ _ _ hhi]
    have h2 : i - lo < hi - lo + 1 := by omega
    have h3 : lo + (i - lo) = i := by omega
    simp [h2, h3]
  · rw [if_neg h1]
    by_cases h2 : i < 32
    · simp [h2]
    · simp [h2, testBit_eq_false_of_lt_32 raw i hraw (by omega)]

/-- The high bits of the replacement value are silently discarded. -/
theorem bitfield_replace_mod (orig hi lo new : Nat)
    (hlo : lo ≤ hi) (hhi : hi ≤ 31) :
    bitfield_replace orig hi lo new
      = bitfield_replace orig hi lo (new % 2 ^ (hi - lo + 1)) := by
  apply Nat.eq_of_testBit_eq
  intro i
  rw [testBit_bitfield_replace _ _ _ _ _ hlo hhi,
    testBit_bitfield_replace _ _ _ _ _ hlo hhi]
  by_cases h1 : lo ≤ i ∧ i ≤ hi
  · rw [if_pos h1, if_pos h1, Nat.testBit_mod_two_pow]
    have h2 : i - lo < hi - lo + 1 := by omega
    simp [h2]
  · rw [if_neg h1, if_neg h1]

/-- In the maximal-width case the mask is all-ones and the whole word is
replaced. -/
theorem bitfield_replace_full (orig new : Nat) (hnew : new < 2 ^ 32) :
    bitfield_replace orig 31 0 new = new := by
  apply Nat.eq_of_testBit_eq
  intro i
  rw [testBit_bitfield_replace _ _ _ _ _ (by omega) (by omega)]
  by_cases h1 : i ≤ 31
  · simp [h1]
  · simp [h1, show ¬(i < 32) by omega,
      testBit_eq_false_of_lt_32 new i hnew (by omega)]

/-!
### `bit_enums` from `stm32f4/rcc/raw.rs`

Each `bit_enum` expands (via the `bit_enums!` macro in `bits.rs`) to an
enum with explicit discriminants plus `IntoBits` (`self as u32`),
`FromBits` (match on the listed discriminants, else `BadBits`) and
`FromBitsTotal` (same match, else `unreachable!()`, modelled as `none`).
-/

/-- Clocks that can be output on the MCO2 pin. -/
inductive Mco2
  | Sysclk
  | Plli2s
  | Hse
  | Pll
deriving DecidableEq, Repr

def Mco2.into_bits : Mco2 → Nat
  | .Sysclk => 0b00
  | .Plli2s => 0b01
  | .Hse => 0b10
  | .Pll => 0b11

def Mco2.from_bits (bits : Nat) : BitsResult Mco2 :=
  match bits with
  | 0b00 => .ok .Sysclk
  | 0b01 => .ok .Plli2s
  | 0b10 => .ok .Hse
  | 0b11 => .ok .Pll
  | _ => .error ⟨bits⟩

def Mco2.from_bits_total (bits : Nat) : Option Mco2 :=
  match bits with
  | 0b00 => some .Sysclk
  | 0b01 => some .Plli2s
  | 0b10 => some .Hse
  | 0b11 => some .Pll
  | _ => none

/-- Prescaler options for the MCOx pins. -/
inductive McoPre
  | Div2
  | Div3
  | Div4
  | Div5
deriving DecidableEq, Repr

def McoPre.into_bits : McoPre → Nat
  | .Div2 => 0b00
  | .Div3 => 0b01
  | .Div4 => 0b10
  | .Div5 => 0b11

def McoPre.from_bits (bits : Nat) : BitsResult McoPre :=
  match bits with
  | 0b00 => .ok .Div2
  | 0b01 => .ok .Div3
  | 0b10 => .ok .Div4
  | 0b11 => .ok .Div5
  | _ => .error ⟨bits⟩

def McoPre.from_bits_total (bits : Nat) : Option McoPre :=
  match bits with
  | 0b00 => some .Div2
  | 0b01 => some .Div3
  | 0b10 => some .Div4
  | 0b11 => some .Div5
  | _ => none

/-- Clocks that can be used to feed the I2S peripheral(s). -/
inductive I2sSrc
  | Plli2s
  | I2sCkin
deriving DecidableEq, Repr

def I2sSrc.into_bits : I2sSrc → Nat
  | .Plli2s => 0
  | .I2sCkin => 1

def I2sSrc.from_bits (bits : Nat) : BitsResult I2sSrc :=
  match bits with
  | 0 => .ok .Plli2s
  | 1 => .ok .I2sCkin
  | _ => .error ⟨bits⟩

def I2sSrc.from_bits_total (bits : Nat) : Option I2sSrc :=
  match bits with
  | 0 => some .Plli2s
  | 1 => some .I2sCkin
  | _ => none

/-- Clocks that can be output on the MCO1 pin. -/
inductive Mco1
  | Hsi
  | Lse
  | Hse
  | Pll
deriving DecidableEq, Repr

def Mco1.into_bits : Mco1 → Nat
  | .Hsi => 0b00
  | .Lse => 0b01
  | .Hse => 0b10
  | .Pll => 0b11

def Mco1.from_bits (bits : Nat) : BitsResult Mco1 :=
  match bits with
  | 0b00 => .ok .Hsi
  | 0b01 => .ok .Lse
  | 0b10 => .ok .Hse
  | 0b11 => .ok .Pll
  | _ => .error ⟨bits⟩

def Mco1.from_bits_total (bits : Nat) : Option Mco1 :=
  match bits with
  | 0b00 => some .Hsi
  | 0b01 => some .Lse
  | 0b10 => some .Hse
  | 0b11 => some .Pll
  | _ => none

/-- Prescaler options for the APB clocks (relative to the AHB clock). -/
inductive ApbPrescaler
  | Div2
  | Div4
  | Div8
  | Div16
deriving DecidableEq, Repr

def ApbPrescaler.into_bits : ApbPrescaler → Nat
  | .Div2 => 0b00
  | .Div4 => 0b01
  | .Div8 => 0b10
  | .Div16 => 0b11

def ApbPrescaler.from_bits (bits : Nat) : BitsResult ApbPrescaler :=
  match bits with
  | 0b00 => .ok .Div2
  | 0b01 => .ok .Div4
  | 0b10 => .ok .Div8
  | 0b11 => .ok .Div16
  | _ => .error ⟨bits⟩

def ApbPrescaler.from_bits_total (bits : Nat) : Option ApbPrescaler :=
  match bits with
  | 0b00 => some .Div2
  | 0b01 => some .Div4
  | 0b10 => some .Div8
  | 0b11 => some .Div16
  | _ => none

/-- Prescaler options for the AHB clocks (relative to the system clock). -/
inductive AhbPrescaler
  | Div2
  | Div4
  | Div8
  | Div16
  | Div64
  | Div128
  | Div256
  | Div512
deriving DecidableEq, Repr

def AhbPrescaler.into_bits : AhbPrescaler → Nat
  | .Div2 => 0b000
  | .Div4 => 0b001
  | .Div8 => 0b010
  | .Div16 => 0b011
  | .Div64 => 0b100
  | .Div128 => 0b101
  | .Div256 => 0b110
  | .Div512 => 0b111

def AhbPrescaler.from_bits (bits : Nat) : BitsResult AhbPrescaler :=
  match bits with
  | 0b000 => .ok .Div2
  | 0b001 => .ok .Div4
  | 0b010 => .ok .Div8
  | 0b011 => .ok .Div16
  | 0b100 => .ok .Div64
  | 0b101 => .ok .Div128
  | 0b110 => .ok .Div256
  | 0b111 => .ok .Div512
  | _ => .error ⟨bits⟩

def AhbPrescaler.from_bits_total (bits : Nat) : Option AhbPrescaler :=
  match bits with
  | 0b000 => some .Div2
  | 0b001 => some .Div4
  | 0b010 => some .Div8
  | 0b011 => some .Div16
  | 0b100 => some .Div64
  | 0b101 => some .Div128
  | 0b110 => some .Div256
  | 0b111 => some .Div512
  | _ => none

/-- Clocks that can be used as the system clock source.  Note: only three
of the four 2-bit patterns are listed. -/
inductive ClockSwitch
  | Hsi
  | Hse
  | Pll
deriving DecidableEq, Repr

def ClockSwitch.into_bits : ClockSwitch → Nat
  | .Hsi => 0b00
  | .Hse => 0b01
  | .Pll => 0b10

def ClockSwitch.from_bits (bits : Nat) : BitsResult ClockSwitch :=
  match bits with
  | 0b00 => .ok .Hsi
  | 0b01 => .ok .Hse
  | 0b10 => .ok .Pll
  | _ => .error ⟨bits⟩

def ClockSwitch.from_bits_total (bits : Nat) : Option ClockSwitch :=
  match bits with
  | 0b00 => some .Hsi
  | 0b01 => some .Hse
  | 0b10 => some .Pll
  | _ => none

/-- Options for the PLL source clock. -/
inductive PllSource
  | Hsi
  | Hse
deriving DecidableEq, Repr

def PllSource.into_bits : PllSource → Nat
  | .Hsi => 0
  | .Hse => 1

def PllSource.from_bits (bits : Nat) : BitsResult PllSource :=
  match bits with
  | 0 => .ok .Hsi
  | 1 => .ok .Hse
  | _ => .error ⟨bits⟩

def PllSource.from_bits_total (bits : Nat) : Option PllSource :=
  match bits with
  | 0 => some .Hsi
  | 1 => some .Hse
  | _ => none

/-- Options for deriving the system clock from the PLL's VCO. -/
inductive Pllp
  | Div2
  | Div4
  | Div6
  | Div8
deriving DecidableEq, Repr

def Pllp.into_bits : Pllp → Nat
  | .Div2 => 0b00
  | .Div4 => 0b01
  | .Div6 => 0b10
  | .Div8 => 0b11

def Pllp.from_bits (bits : Nat) : BitsResult Pllp :=
  match bits with
  | 0b00 => .ok .Div2
  | 0b01 => .ok .Div4
  | 0b10 => .ok .Div6
  | 0b11 => .ok .Div8
  | _ => .error ⟨bits⟩

def Pllp.from_bits_total (bits : Nat) : Option Pllp :=
  match bits with
  | 0b00 => some .Div2
  | 0b01 => some .Div4
  | 0b10 => some .Div6
  | 0b11 => some .Div8
  | _ => none

/-! ### `ClockDivisor` impls from `rcc/raw.rs` -/

def ApbPrescaler.to_divisor : ApbPrescaler → Nat
  | .Div2 => 2
  | .Div4 => 4
  | .Div8 => 8
  | .Div16 => 16

def AhbPrescaler.to_divisor : AhbPrescaler → Nat
  | .Div2 => 2
  | .Div4 => 4
  | .Div8 => 8
  | .Div16 => 16
  | .Div64 => 64
  | .Div128 => 128
  | .Div256 => 256
  | .Div512 => 512

def Pllp.to_divisor : Pllp → Nat
  | .Div2 => 2
  | .Div4 => 4
  | .Div6 => 6
  | .Div8 => 8

/-- `impl<T: ClockDivisor> ClockDivisor for Option<T>`:
`self.map(|v| v.to_divisor()).unwrap_or(1)`. -/
def option_to_divisor {α : Type} (to_div : α → Nat) (o : Option α) : Nat :=
  (o.map to_div).getD 1

/-!
### Register wrapper accessors

`bit_wrappers!` newtypes (`Cr(pub u32)`, `Cfgr`, `Pllcfgr`, `Acr`) are
modelled as `Nat` carrying the raw 32-bit word; each macro-generated
accessor pair becomes a getter (total getters return `Option`, `none`
standing for the `unreachable!()` panic; fallible ones return
`BitsResult`) and a builder on the raw word.
-/

def Cr.get_plli2srdy (v : Nat) : Option Bool :=
  bool_from_bits_total (bitfield_extract v 27 27)

def Cr.with_plli2srdy (v : Nat) (b : Bool) : Nat :=
  bitfield_replace v 27 27 (bool_into_bits b)

def Cr.get_plli2son (v : Nat) : Option Bool :=
  bool_from_bits_total (bitfield_extract v 26 26)

def Cr.with_plli2son (v : Nat) (b : Bool) : Nat :=
  bitfield_replace v 26 26 (bool_into_bits b)

def Cr.get_pllrdy (v : Nat) : Option Bool :=
  bool_from_bits_total (bitfield_extract v 25 25)

def Cr.with_pllrdy (v : Nat) (b : Bool) : Nat :=
  bitfield_replace v 25 25 (bool_into_bits b)

def Cr.get_pllon (v : Nat) : Option Bool :=
  bool_from_bits_total (bitfield_extract v 24 24)

def Cr.with_pllon (v : Nat) (b : Bool) : Nat :=
  bitfield_replace v 24 24 (bool_into_bits b)

def Cr.get_csson (v : Nat) : Option Bool :=
  bool_from_bits_total (bitfield_extract v 19 19)

def Cr.with_csson (v : Nat) (b : Bool) : Nat :=
  bitfield_replace v 19 19 (bool_into_bits b)

def Cr.get_hsebyp (v : Nat) : Option Bool :=
  bool_from_bits_total (bitfield_extract v 18 18)

def Cr.with_hsebyp (v : Nat) (b : Bool) : Nat :=
  bitfield_replace v 18 18 (bool_into_bits b)

def Cr.get_hserdy (v : Nat) : Option Bool :=
  bool_from_bits_total (bitfield_extract v 17 17)

def Cr.with_hserdy (v : Nat) (b : Bool) : Nat :=
  bitfield_replace v 17 17 (bool_into_bits b)

def Cr.get_hseon (v : Nat) : Option Bool :=
  bool_from_bits_total (bitfield_extract v 16 16)

def Cr.with_hseon (v : Nat) (b : Bool) : Nat :=
  bitfield_replace v 16 16 (bool_into_bits b)

def Cr.get_hsical (v : Nat) : Option Nat :=
  u8_from_bits_total (bitfield_extract v 15 8)

def Cr.with_hsical (v : Nat) (x : Nat) : Nat :=
  bitfield_replace v 15 8 (uint_into_bits x)

def Cr.get_hsitrim (v : Nat) : Option Nat :=
  u32_from_bits_total (bitfield_extract v 7 3)

def Cr.with_hsitrim (v : Nat) (x : Nat) : Nat :=
  bitfield_replace v 7 3 (uint_into_bits x)

def Cr.get_hsirdy (v : Nat) : Option Bool :=
  bool_from_bits_total (bitfield_extract v 1 1)

def Cr.with_hsirdy (v : Nat) (b : Bool) : Nat :=
  bitfield_replace v 1 1 (bool_into_bits b)

def Cr.get_hsion (v : Nat) : Option Bool :=
  bool_from_bits_total (bitfield_extract v 0 0)

def Cr.with_hsion (v : Nat) (b : Bool) : Nat :=
  bitfield_replace v 0 0 (bool_into_bits b)

def Cfgr.get_mco2 (v : Nat) : Option Mco2 :=
  Mco2.from_bits_total (bitfield_extract v 31 30)

def Cfgr.with_mco2 (v : Nat) (x : Mco2) : Nat :=
  bitfield_replace v 31 30 x.into_bits

def Cfgr.get_mco2pre_en (v : Nat) : Option Bool :=
  bool_from_bits_total (bitfield_extract v 29 29)

def Cfgr.with_mco2pre_en (v : Nat) (b : Bool) : Nat :=
  bitfield_replace v 29 29 (bool_into_bits b)

def Cfgr.get_mco2pre_div (v : Nat) : Option McoPre :=
  McoPre.from_bits_total (bitfield_extract v 28 27)

def Cfgr.with_mco2pre_div (v : Nat) (x : McoPre) : Nat :=
  bitfield_replace v 28 27 x.into_bits

def Cfgr.get_mco1pre_en (v : Nat) : Option Bool :=
  bool_from_bits_total (bitfield_extract v 26 26)

def Cfgr.with_mco1pre_en (v : Nat) (b : Bool) : Nat :=
  bitfield_replace v 26 26 (bool_into_bits b)

def Cfgr.get_mco1pre_div (v : Nat) : Option McoPre :=
  McoPre.from_bits_total (bitfield_extract v 25 24)

def Cfgr.with_mco1pre_div (v : Nat) (x : McoPre) : Nat :=
  bitfield_replace v 25 24 x.into_bits

def Cfgr.get_i2ssrc (v : Nat) : Option I2sSrc :=
  I2sSrc.from_bits_total (bitfield_extract v 23 23)

def Cfgr.with_i2ssrc (v : Nat) (x : I2sSrc) : Nat :=
  bitfield_replace v 23 23 x.into_bits

def Cfgr.get_mco1 (v : Nat) : Option Mco1 :=
  Mco1.from_bits_total (bitfield_extract v 22 21)

def Cfgr.with_mco1 (v : Nat) (x : Mco1) : Nat :=
  bitfield_replace v 22 21 x.into_bits

def Cfgr.get_ppre2_en (v : Nat) : Option Bool :=
  bool_from_bits_total (bitfield_extract v 15 15)

def Cfgr.with_ppre2_en (v : Nat) (b : Bool) : Nat :=
  bitfield_replace v 15 15 (bool_into_bits b)

def Cfgr.get_ppre2_div (v : Nat) : Option ApbPrescaler :=
  ApbPrescaler.from_bits_total (bitfield_extract v 14 13)

def Cfgr.with_ppre2_div (v : Nat) (x : ApbPrescaler) : Nat :=
  bitfield_replace v 14 13 x.into_bits

def Cfgr.get_ppre1_en (v : Nat) : Option Bool :=
  bool_from_bits_total (bitfield_extract v 12 12)

def Cfgr.with_ppre1_en (v : Nat) (b : Bool) : Nat :=
  bitfield_replace v 12 12 (bool_into_bits b)

def Cfgr.get_ppre1_div (v : Nat) : Option ApbPrescaler :=
  ApbPrescaler.from_bits_total (bitfield_extract v 11 10)

def Cfgr.with_ppre1_div (v : Nat) (x : ApbPrescaler) : Nat :=
  bitfield_replace v 11 10 x.into_bits

def Cfgr.get_hpre_en (v : Nat) : Option Bool :=
  bool_from_bits_total (bitfield_extract v 7 7)

def Cfgr.with_hpre_en (v : Nat) (b : Bool) : Nat :=
  bitfield_replace v 7 7 (bool_into_bits b)

def Cfgr.get_hpre_div (v : Nat) : Option AhbPrescaler :=
  AhbPrescaler.from_bits_total (bitfield_extract v 6 4)

def Cfgr.with_hpre_div (v : Nat) (x : AhbPrescaler) : Nat :=
  bitfield_replace v 6 4 x.into_bits

/-- SWS field: declared without `total`, so it decodes via `FromBits`. -/
def Cfgr.get_sws (v : Nat) : BitsResult ClockSwitch :=
  ClockSwitch.from_bits (bitfield_extract v 3 2)

def Cfgr.with_sws (v : Nat) (x : ClockSwitch) : Nat :=
  bitfield_replace v 3 2 x.into_bits

/-- SW field: declared without `total`, so it decodes via `FromBits`. -/
def Cfgr.get_sw (v : Nat) : BitsResult ClockSwitch :=
  ClockSwitch.from_bits (bitfield_extract v 1 0)

def Cfgr.with_sw (v : Nat) (x : ClockSwitch) : Nat :=
  bitfield_replace v 1 0 x.into_bits

/-!
`en_option_accessors!` instances on `Cfgr`: an enable flag plus a divisor
selection presented as one optional prescaler.
-/

def Cfgr.get_mco2pre (v : Nat) : Option (Option McoPre) :=
  (Cfgr.get_mco2pre_en v).bind fun en =>
    if en then (Cfgr.get_mco2pre_div v).map some else some none

def Cfgr.with_mco2pre (v : Nat) (o : Option McoPre) : Nat :=
  match o with
  | some w => Cfgr.with_mco2pre_en (Cfgr.with_mco2pre_div v w) true
  | none => Cfgr.with_mco2pre_en v false

def Cfgr.get_mco1pre (v : Nat) : Option (Option McoPre) :=
  (Cfgr.get_mco1pre_en v).bind fun en =>
    if en then (Cfgr.get_mco1pre_div v).map some else some none

def Cfgr.with_mco1pre (v : Nat) (o : Option McoPre) : Nat :=
  match o with
  | some w => Cfgr.with_mco1pre_en (Cfgr.with_mco1pre_div v w) true
  | none => Cfgr.with_mco1pre_en v false

def Cfgr.get_ppre2 (v : Nat) : Option (Option ApbPrescaler) :=
  (Cfgr.get_ppre2_en v).bind fun en =>
    if en then (Cfgr.get_ppre2_div v).map some else some none

def Cfgr.with_ppre2 (v : Nat) (o : Option ApbPrescaler) : Nat :=
  match o with
  | some w => Cfgr.with_ppre2_en (Cfgr.with_ppre2_div v w) true
  | none => Cfgr.with_ppre2_en v false

def Cfgr.get_ppre1 (v : Nat) : Option (Option ApbPrescaler) :=
  (Cfgr.get_ppre1_en v).bind fun en =>
    if en then (Cfgr.get_ppre1_div v).map some else some none

def Cfgr.with_ppre1 (v : Nat) (o : Option ApbPrescaler) : Nat :=
  match o with
  | some w => Cfgr.with_ppre1_en (Cfgr.with_ppre1_div v w) true
  | none => Cfgr.with_ppre1_en v false

def Cfgr.get_hpre (v : Nat) : Option (Option AhbPrescaler) :=
  (Cfgr.get_hpre_en v).bind fun en =>
    if en then (Cfgr.get_hpre_div v).map some else some none

def Cfgr.with_hpre (v : Nat) (o : Option AhbPrescaler) : Nat :=
  match o with
  | some w => Cfgr.with_hpre_en (Cfgr.with_hpre_div v w) true
  | none => Cfgr.with_hpre_en v false

def Pllcfgr.get_pllq (v : Nat) : Option Nat :=
  u32_from_bits_total (bitfield_extract v 27 24)

def Pllcfgr.with_pllq (v : Nat) (x : Nat) : Nat :=
  bitfield_replace v 27 24 (uint_into_bits x)

def Pllcfgr.get_pllsrc (v : Nat) : Option PllSource :=
  PllSource.from_bits_total (bitfield_extract v 22 22)

def Pllcfgr.with_pllsrc (v : Nat) (x : PllSource) : Nat :=
  bitfield_replace v 22 22 x.into_bits

def Pllcfgr.get_pllp (v : Nat) : Option Pllp :=
  Pllp.from_bits_total (bitfield_extract v 17 16)

def Pllcfgr.with_pllp (v : Nat) (x : Pllp) : Nat :=
  bitfield_replace v 17 16 x.into_bits

def Pllcfgr.get_plln (v : Nat) : Option Nat :=
  u32_from_bits_total (bitfield_extract v 14 6)

def Pllcfgr.with_plln (v : Nat) (x : Nat) : Nat :=
  bitfield_replace v 14 6 (uint_into_bits x)

def Pllcfgr.get_pllm (v : Nat) : Option Nat :=
  u32_from_bits_total (bitfield_extract v 5 0)

def Pllcfgr.with_pllm (v : Nat) (x : Nat) : Nat :=
  bitfield_replace v 5 0 (uint_into_bits x)

def Acr.get_dcrst (v : Nat) : Option Bool :=
  bool_from_bits_total (bitfield_extract v 12 12)

def Acr.with_dcrst (v : Nat) (b : Bool) : Nat :=
  bitfield_replace v 12 12 (bool_into_bits b)

def Acr.get_icrst (v : Nat) : Option Bool :=
  bool_from_bits_total (bitfield_extract v 11 11)

def Acr.with_icrst (v : Nat) (b : Bool) : Nat :=
  bitfield_replace v 11 11 (bool_into_bits b)

def Acr.get_dcen (v : Nat) : Option Bool :=
  bool_from_bits_total (bitfield_extract v 10 10)

def Acr.with_dcen (v : Nat) (b : Bool) : Nat :=
  bitfield_replace v 10 10 (bool_into_bits b)

def Acr.get_icen (v : Nat) : Option Bool :=
  bool_from_bits_total (bitfield_extract v 9 9)

def Acr.with_icen (v : Nat) (b : Bool) : Nat :=
  bitfield_replace v 9 9 (bool_into_bits b)

def Acr.get_prften (v : Nat) : Option Bool :=
  bool_from_bits_total (bitfield_extract v 8 8)

def Acr.with_prften (v : Nat) (b : Bool) : Nat :=
  bitfield_replace v 8 8 (bool_into_bits b)

def Acr.get_latency (v : Nat) : Option Nat :=
  u32_from_bits_total (bitfield_extract v 2 0)

def Acr.with_latency (v : Nat) (x : Nat) : Nat :=
  bitfield_replace v 2 0 (uint_into_bits x)

/-!
### `ClockConfig` and `compute_speeds` (`stm32f4/rcc/mod.rs`)

`crystal_hz` is `f32` in the source and the speed computation is done in
`f32`.  It is modelled over `ℚ`: at every input appearing in this
development all intermediate values are integers of the form `m * 2^e`
with `m < 2^24`, hence exactly representable in IEEE binary32, and each
division/multiplication has an exactly representable result, so binary32
arithmetic agrees with `ℚ` there (see `compute_speeds_exact_in_binary32`).
-/

/-- A clock configuration when using the HSE crystal oscillator and
internal PLL. -/
structure ClockConfig where
  crystal_hz : ℚ
  crystal_divisor : Nat
  vco_multiplier : Nat
  general_divisor : Pllp
  pll48_divisor : Nat
  ahb_divisor : Option AhbPrescaler
  apb1_divisor : Option ApbPrescaler
  apb2_divisor : Option ApbPrescaler
  flash_latency : Nat

/-- The various internal clock speeds computed from a `ClockConfig`. -/
structure ClockSpeeds where
  cpu : ℚ
  ahb : ℚ
  apb1 : ℚ
  apb2 : ℚ
  pll48 : ℚ

/-- `ClockConfig::compute_speeds`. -/
def ClockConfig.compute_speeds (c : ClockConfig) : ClockSpeeds :=
  let vco_in_hz := c.crystal_hz / (c.crystal_divisor : ℚ)
  let vco_out_hz := vco_in_hz * (c.vco_multiplier : ℚ)
  let cpu := vco_out_hz / (c.general_divisor.to_divisor : ℚ)
  { cpu := cpu
    ahb := cpu / (option_to_divisor AhbPrescaler.to_divisor c.ahb_divisor : ℚ)
    apb1 := cpu / (option_to_divisor ApbPrescaler.to_divisor c.apb1_divisor : ℚ)
    apb2 := cpu / (option_to_divisor ApbPrescaler.to_divisor c.apb2_divisor : ℚ)
    pll48 := vco_out_hz / (c.pll48_divisor : ℚ) }

/-!
### `Rcc::configure_clocks` as a trace-producing transition function

The RCC register file (the part `configure_clocks` touches) plus the
Flash `ACR` register is the state; every `write_*` appends a write event
recording the register, its previous content, and the value written.

Hardware readiness behaviour: reads go through a view in which the
hardware-owned status fields mirror the corresponding control fields
(`HSIRDY = HSION`, `HSERDY = HSEON`, `PLLRDY = PLLON`, `SWS = SW`), which
is the steady-state of responsive hardware.  Each `while !ready {}` poll
of the source issues no writes; under this read model its condition never
changes between iterations, so the loop is modelled as a guard: `some`
(the loop exits, immediately) when the condition holds, `none` (the loop
spins forever) otherwise.
-/

/-- The four registers `configure_clocks` writes. -/
inductive RegName
  | cr
  | cfgr
  | pllcfgr
  | acr
deriving DecidableEq, Repr

/-- One hardware register write: which register, the register's content
immediately before the write, and the value written. -/
structure WriteEv where
  reg : RegName
  old : Nat
  new : Nat
deriving DecidableEq, Repr

/-- State touched by `configure_clocks`: the RCC `CR`, `CFGR` and
`PLLCFGR` registers plus the Flash `ACR` register. -/
structure Sys where
  cr : Nat
  cfgr : Nat
  pllcfgr : Nat
  acr : Nat
deriving DecidableEq, Repr

/-- Responsive-hardware view of `CR`: ready flags mirror enable bits. -/
def hw_cr_view (c : Nat) : Nat :=
  bitfield_replace
    (bitfield_replace
      (bitfield_replace c 1 1 (bitfield_extract c 0 0))
      17 17 (bitfield_extract c 16 16))
    25 25 (bitfield_extract c 24 24)

/-- Responsive-hardware view of `CFGR`: `SWS` mirrors `SW`. -/
def hw_cfgr_view (c : Nat) : Nat :=
  bitfield_replace c 3 2 (bitfield_extract c 1 0)

def read_cr (s : Sys) : Nat := hw_cr_view s.cr

def read_cfgr (s : Sys) : Nat := hw_cfgr_view s.cfgr

def read_pllcfgr (s : Sys) : Nat := s.pllcfgr

def read_acr (s : Sys) : Nat := s.acr

def write_cr (s : Sys) (t : List WriteEv) (v : Nat) : Sys × List WriteEv :=
  ({ s with cr := v }, t ++ [⟨.cr, s.cr, v⟩])

def write_cfgr (s : Sys) (t : List WriteEv) (v : Nat) : Sys × List WriteEv :=
  ({ s with cfgr := v }, t ++ [⟨.cfgr, s.cfgr, v⟩])

def write_pllcfgr (s : Sys) (t : List WriteEv) (v : Nat) :
    Sys × List WriteEv :=
  ({ s with pllcfgr := v }, t ++ [⟨.pllcfgr, s.pllcfgr, v⟩])

def write_acr (s : Sys) (t : List WriteEv) (v : Nat) : Sys × List WriteEv :=
  ({ s with acr := v }, t ++ [⟨.acr, s.acr, v⟩])

def update_cr (st : Sys × List WriteEv) (f : Nat → Nat) :
    Sys × List WriteEv :=
  write_cr st.1 st.2 (f (read_cr st.1))

def update_cfgr (st : Sys × List WriteEv) (f : Nat → Nat) :
    Sys × List WriteEv :=
  write_cfgr st.1 st.2 (f (read_cfgr st.1))

def update_pllcfgr (st : Sys × List WriteEv) (f : Nat → Nat) :
    Sys × List WriteEv :=
  write_pllcfgr st.1 st.2 (f (read_pllcfgr st.1))

def update_acr (st : Sys × List WriteEv) (f : Nat → Nat) :
    Sys × List WriteEv :=
  write_acr st.1 st.2 (f (read_acr st.1))

/-- A `while !cond {}` readiness poll: issues no writes; under the static
read model it exits (immediately) iff `cond` holds, else spins forever
(`none`). -/
def poll_until (p : Prop) [Decidable p] (st : Sys × List WriteEv) :
    Option (Sys × List WriteEv) :=
  if p then some st else none

instance : DecidableEq (BitsResult ClockSwitch) := fun x y =>
  match x, y with
  | .ok a, .ok b =>
    if h : a = b then isTrue (by rw [h])
    else isFalse (fun hc => by cases hc; exact h rfl)
  | .ok _, .error _ => isFalse (fun hc => by cases hc)
  | .error _, .ok _ => isFalse (fun hc => by cases hc)
  | .error a, .error b =>
    if h : a = b then isTrue (by rw [h])
    else isFalse (fun hc => by cases hc; exact h rfl)

/-- `Rcc::configure_clocks(cfg)`, with the Flash `ACR` update of
`FLASH.update_acr` inlined at its call site. -/
def configure_clocks (cfg : ClockConfig) (s0 : Sys) :
    Option (Sys × List WriteEv) :=
  let st1 := update_cr (s0, []) (fun v => Cr.with_hsion v true)
  (poll_until (Cr.get_hsirdy (read_cr st1.1) = some true) st1).bind fun st1 =>
  let st2 := update_cfgr st1 (fun v => Cfgr.with_sw v .Hsi)
  (poll_until (Cfgr.get_sws (read_cfgr st2.1) = .ok .Hsi) st2).bind fun st2 =>
  let st3 := update_cr st2 (fun v => Cr.with_pllon v false)
  (poll_until (Cr.get_pllrdy (read_cr st3.1) = some false) st3).bind fun st3 =>
  let st4 := update_cfgr st3 (fun v =>
    Cfgr.with_ppre2 (Cfgr.with_ppre1 (Cfgr.with_hpre v cfg.ahb_divisor)
      cfg.apb1_divisor) cfg.apb2_divisor)
  let st5 := update_acr st4 (fun v => Acr.with_latency v cfg.flash_latency)
  let st6 := update_cr st5 (fun v => Cr.with_hseon v true)
  (poll_until (Cr.get_hserdy (read_cr st6.1) = some true) st6).bind fun st6 =>
  let st7 := update_pllcfgr st6 (fun v =>
    Pllcfgr.with_pllsrc
      (Pllcfgr.with_pllq
        (Pllcfgr.with_pllp
          (Pllcfgr.with_plln (Pllcfgr.with_pllm v cfg.crystal_divisor)
            cfg.vco_multiplier)
          cfg.general_divisor)
        cfg.pll48_divisor)
      .Hse)
  let st8 := update_cr st7 (fun v => Cr.with_pllon v true)
  (poll_until (Cr.get_pllrdy (read_cr st8.1) = some true) st8).bind fun st8 =>
  let st9 := update_cfgr st8 (fun v => Cfgr.with_sw v .Pll)
  (poll_until (Cfgr.get_sws (read_cfgr st9.1) = .ok .Pll) st9).bind fun st9 =>
  some st9

/-! ### Evaluating `configure_clocks` symbolically -/

theorem hw_cr_view_bit1 (c : Nat) :
    bitfield_extract (hw_cr_view c) 1 1 = bitfield_extract c 0 0 := by
  unfold hw_cr_view
  rw [bitfield_extract_replace_disjoint _ 25 25 _ 1 1 (by omega) (by omega)
      (by omega) (by omega) (by omega),
    bitfield_extract_replace_disjoint _ 17 17 _ 1 1 (by omega) (by omega)
      (by omega) (by omega) (by omega),
    bitfield_extract_replace_of_lt _ 1 1 _ (by omega) (by omega)
      (bitfield_extract_lt c 0 0 (by omega))]

theorem hw_cr_view_bit17 (c : Nat) :
    bitfield_extract (hw_cr_view c) 17 17 = bitfield_extract c 16 16 := by
  unfold hw_cr_view
  rw [bitfield_extract_replace_disjoint _ 25 25 _ 17 17 (by omega) (by omega)
      (by omega) (by omega) (by omega),
    bitfield_extract_replace_of_lt _ 17 17 _ (by omega) (by omega)
      (bitfield_extract_lt c 16 16 (by omega))]

theorem hw_cr_view_bit25 (c : Nat) :
    bitfield_extract (hw_cr_view c) 25 25 = bitfield_extract c 24 24 := by
  unfold hw_cr_view
  rw [bitfield_extract_replace_of_lt _ 25 25 _ (by omega) (by omega)
      (bitfield_extract_lt c 24 24 (by omega))]

theorem hw_cfgr_view_sws_bits (c : Nat) :
    bitfield_extract (hw_cfgr_view c) 3 2 = bitfield_extract c 1 0 := by
  unfold hw_cfgr_view
  rw [bitfield_extract_replace_of_lt _ 3 2 _ (by omega) (by omega)
      (bitfield_extract_lt c 1 0 (by omega))]

theorem guard_hsirdy (c : Nat) :
    Cr.get_hsirdy (hw_cr_view (Cr.with_hsion c true)) = some true := by
  unfold Cr.get_hsirdy Cr.with_hsion
  rw [hw_cr_view_bit1,
    bitfield_extract_replace_of_lt _ 0 0 _ (by omega) (by omega)
      (by decide)]
  rfl

theorem guard_sws_hsi (c : Nat) :
    Cfgr.get_sws (hw_cfgr_view (Cfgr.with_sw c .Hsi)) = .ok .Hsi := by
  unfold Cfgr.get_sws Cfgr.with_sw
  rw [hw_cfgr_view_sws_bits,
    bitfield_extract_replace_of_lt _ 1 0 _ (by omega) (by omega)
      (by decide)]
  rfl

theorem guard_pllrdy_off (c : Nat) :
    Cr.get_pllrdy (hw_cr_view (Cr.with_pllon c false)) = some false := by
  unfold Cr.get_pllrdy Cr.with_pllon
  rw [hw_cr_view_bit25,
    bitfield_extract_replace_of_lt _ 24 24 _ (by omega) (by omega)
      (by decide)]
  rfl

theorem guard_hserdy (c : Nat) :
    Cr.get_hserdy (hw_cr_view (Cr.with_hseon c true)) = some true := by
  unfold Cr.get_hserdy Cr.with_hseon
  rw [hw_cr_view_bit17,
    bitfield_extract_replace_of_lt _ 16 16 _ (by omega) (by omega)
      (by decide)]
  rfl

theorem guard_pllrdy_on (c : Nat) :
    Cr.get_pllrdy (hw_cr_view (Cr.with_pllon c true)) = some true := by
  unfold Cr.get_pllrdy Cr.with_pllon
  rw [hw_cr_view_bit25,
    bitfield_extract_replace_of_lt _ 24 24 _ (by omega) (by omega)
      (by decide)]
  rfl

theorem guard_sws_pll (c : Nat) :
    Cfgr.get_sws (hw_cfgr_view (Cfgr.with_sw c .Pll)) = .ok .Pll := by
  unfold Cfgr.get_sws Cfgr.with_sw
  rw [hw_cfgr_view_sws_bits,
    bitfield_extract_replace_of_lt _ 1 0 _ (by omega) (by omega)
      (by decide)]
  rfl

/-- `CR` content after step 1 (HSI enabled). -/
def step1_cr (s0 : Sys) : Nat := Cr.with_hsion (hw_cr_view s0.cr) true

/-- `CFGR` content after step 2 (system clock switched to HSI). -/
def step2_cfgr (s0 : Sys) : Nat := Cfgr.with_sw (hw_cfgr_view s0.cfgr) .Hsi

/-- `CR` content after step 3 (PLL disabled). -/
def step3_cr (s0 : Sys) : Nat := Cr.with_pllon (hw_cr_view (step1_cr s0)) false

/-- `CFGR` content after step 4 (bus prescalers applied). -/
def step4_cfgr (cfg : ClockConfig) (s0 : Sys) : Nat :=
  Cfgr.with_ppre2
    (Cfgr.with_ppre1
      (Cfgr.with_hpre (hw_cfgr_view (step2_cfgr s0)) cfg.ahb_divisor)
      cfg.apb1_divisor)
    cfg.apb2_divisor

/-- Flash `ACR` content after step 5 (wait states applied). -/
def step5_acr (cfg : ClockConfig) (s0 : Sys) : Nat :=
  Acr.with_latency s0.acr cfg.flash_latency

/-- `CR` content after step 6 (HSE enabled). -/
def step6_cr (s0 : Sys) : Nat := Cr.with_hseon (hw_cr_view (step3_cr s0)) true

/-- `PLLCFGR` content after step 7 (PLL configured, in one write). -/
def step7_pllcfgr (cfg : ClockConfig) (s0 : Sys) : Nat :=
  Pllcfgr.with_pllsrc
    (Pllcfgr.with_pllq
      (Pllcfgr.with_pllp
        (Pllcfgr.with_plln (Pllcfgr.with_pllm s0.pllcfgr cfg.crystal_divisor)
          cfg.vco_multiplier)
        cfg.general_divisor)
      cfg.pll48_divisor)
    .Hse

/-- `CR` content after step 8 (PLL enabled). -/
def step8_cr (s0 : Sys) : Nat := Cr.with_pllon (hw_cr_view (step6_cr s0)) true

/-- `CFGR` content after step 9 (system clock switched to PLL). -/
def step9_cfgr (cfg : ClockConfig) (s0 : Sys) : Nat :=
  Cfgr.with_sw (hw_cfgr_view (step4_cfgr cfg s0)) .Pll

/-- `configure_clocks` always completes under responsive hardware and
issues exactly these nine writes, in this order. -/
theorem configure_clocks_eval (cfg : ClockConfig) (s0 : Sys) :
    configure_clocks cfg s0 = some
      ({ cr := step8_cr s0, cfgr := step9_cfgr cfg s0,
         pllcfgr := step7_pllcfgr cfg s0, acr := step5_acr cfg s0 },
       [⟨.cr, s0.cr, step1_cr s0⟩,
        ⟨.cfgr, s0.cfgr, step2_cfgr s0⟩,
        ⟨.cr, step1_cr s0, step3_cr s0⟩,
        ⟨.cfgr, step2_cfgr s0, step4_cfgr cfg s0⟩,
        ⟨.acr, s0.acr, step5_acr cfg s0⟩,
        ⟨.cr, step3_cr s0, step6_cr s0⟩,
        ⟨.pllcfgr, s0.pllcfgr, step7_pllcfgr cfg s0⟩,
        ⟨.cr, step6_cr s0, step8_cr s0⟩,
        ⟨.cfgr, step4_cfgr cfg s0, step9_cfgr cfg s0⟩]) := by
  unfold configure_clocks
  simp only [update_cr, update_cfgr, update_pllcfgr, update_acr,
    write_cr, write_cfgr, write_pllcfgr, write_acr,
    read_cr, read_cfgr, read_pllcfgr, read_acr, poll_until,
    guard_hsirdy, guard_sws_hsi, guard_pllrdy_off, guard_hserdy,
    guard_pllrdy_on, guard_sws_pll,
    step1_cr, step2_cfgr, step3_cr, step4_cfgr, step5_acr, step6_cr,
    step7_pllcfgr, step8_cr, step9_cfgr]
  simp

/-!
### Peripheral identities and clock gating (`stm32f4/rcc/mod.rs`)

The `peripheral_enum!` macro packs, into each enum discriminant:
`bus | (idx << 8) | (rst << 16) | (clk << 17) | (lp << 18)`.
Feature-gated peripherals (`soc_family:stm32f4[23]`) are included.
-/

def periph_encoding (bus idx rst clk lp : Nat) : Nat :=
  bus ||| (idx <<< 8) ||| (rst <<< 16) ||| (clk <<< 17) ||| (lp <<< 18)

/-- Names the processor's AHB buses (`AhbBus`). -/
inductive AhbBus
  | Ahb1
  | Ahb2
  | Ahb3
deriving DecidableEq, Repr

def AhbBus.toRaw : AhbBus → Nat
  | .Ahb1 => 0
  | .Ahb2 => 1
  | .Ahb3 => 2

/-- Names the processor's APB buses (`ApbBus`). -/
inductive ApbBus
  | Apb1
  | Apb2
deriving DecidableEq, Repr

def ApbBus.toRaw : ApbBus → Nat
  | .Apb1 => 0
  | .Apb2 => 1

/-- Names the processor's AHB-connected peripherals. -/
inductive AhbPeripheral
  | GpioA | GpioB | GpioC | GpioD | GpioE | GpioF | GpioG | GpioH | GpioI
  | GpioJ | GpioK
  | Crc
  | FlashIface | Sram1 | Sram2 | BackupSram | Sram3 | CcmDataRam
  | Dma1 | Dma2 | Dma2d
  | Ethernet | EthernetTx | EthernetRx | EthernetPtp
  | UsbOtgHs | UsbOtgHsUlpi
  | Dcmi | Cryp | Hash | Rng | UsbOtgFs
  | Fsmc
deriving DecidableEq, Repr

/-- The packed discriminant (`self as u32`) of each AHB peripheral:
columns are bus, idx, rst, clk, lp from the table in `rcc/mod.rs`. -/
def AhbPeripheral.encoding : AhbPeripheral → Nat
  | .GpioA => periph_encoding AhbBus.Ahb1.toRaw 0 1 1 1
  | .GpioB => periph_encoding AhbBus.Ahb1.toRaw 1 1 1 1
  | .GpioC => periph_encoding AhbBus.Ahb1.toRaw 2 1 1 1
  | .GpioD => periph_encoding AhbBus.Ahb1.toRaw 3 1 1 1
  | .GpioE => periph_encoding AhbBus.Ahb1.toRaw 4 1 1 1
  | .GpioF => periph_encoding AhbBus.Ahb1.toRaw 5 1 1 1
  | .GpioG => periph_encoding AhbBus.Ahb1.toRaw 6 1 1 1
  | .GpioH => periph_encoding AhbBus.Ahb1.toRaw 7 1 1 1
  | .GpioI => periph_encoding AhbBus.Ahb1.toRaw 8 1 1 1
  | .GpioJ => periph_encoding AhbBus.Ahb1.toRaw 9 1 1 1
  | .GpioK => periph_encoding AhbBus.Ahb1.toRaw 10 1 1 1
  | .Crc => periph_encoding AhbBus.Ahb1.toRaw 12 1 1 1
  | .FlashIface => periph_encoding AhbBus.Ahb1.toRaw 15 0 0 1
  | .Sram1 => periph_encoding AhbBus.Ahb1.toRaw 16 0 0 1
  | .Sram2 => periph_encoding AhbBus.Ahb1.toRaw 17 0 0 1
  | .BackupSram => periph_encoding AhbBus.Ahb1.toRaw 18 0 1 1
  | .Sram3 => periph_encoding AhbBus.Ahb1.toRaw 19 0 0 1
  | .CcmDataRam => periph_encoding AhbBus.Ahb1.toRaw 20 0 1 0
  | .Dma1 => periph_encoding AhbBus.Ahb1.toRaw 21 1 1 1
  | .Dma2 => periph_encoding AhbBus.Ahb1.toRaw 22 1 1 1
  | .Dma2d => periph_encoding AhbBus.Ahb1.toRaw 23 1 1 1
  | .Ethernet => periph_encoding AhbBus.Ahb1.toRaw 25 1 1 1
  | .EthernetTx => periph_encoding AhbBus.Ahb1.toRaw 26 0 1 1
  | .EthernetRx => periph_encoding AhbBus.Ahb1.toRaw 27 0 1 1
  | .EthernetPtp => periph_encoding AhbBus.Ahb1.toRaw 28 0 1 1
  | .UsbOtgHs => periph_encoding AhbBus.Ahb1.toRaw 29 1 1 1
  | .UsbOtgHsUlpi => periph_encoding AhbBus.Ahb1.toRaw 30 0 1 1
  | .Dcmi => periph_encoding AhbBus.Ahb2.toRaw 0 1 1 1
  | .Cryp => periph_encoding AhbBus.Ahb2.toRaw 4 1 1 1
  | .Hash => periph_encoding AhbBus.Ahb2.toRaw 5 1 1 1
  | .Rng => periph_encoding AhbBus.Ahb2.toRaw 6 1 1 1
  | .UsbOtgFs => periph_encoding AhbBus.Ahb2.toRaw 7 1 1 1
  | .Fsmc => periph_encoding AhbBus.Ahb3.toRaw 0 1 1 1

/-- `get_bus`: the low nibble of the discriminant (the source transmutes
it back to the bus enum; it is consumed as an array index `as usize`). -/
def AhbPeripheral.get_bus (p : AhbPeripheral) : Nat := p.encoding &&& 0xF

def AhbPeripheral.get_bit_index (p : AhbPeripheral) : Nat :=
  (p.encoding >>> 8) &&& 0x1F

def AhbPeripheral.has_rst (p : AhbPeripheral) : Bool :=
  (p.encoding &&& (1 <<< 16)) != 0

def AhbPeripheral.has_enr (p : AhbPeripheral) : Bool :=
  (p.encoding &&& (1 <<< 17)) != 0

def AhbPeripheral.has_lpenr (p : AhbPeripheral) : Bool :=
  (p.encoding &&& (1 <<< 18)) != 0

/-- Names the processor's APB-connected peripherals. -/
inductive ApbPeripheral
  | Tim2 | Tim3 | Tim4 | Tim5 | Tim6 | Tim7 | Tim12 | Tim13 | Tim14
  | Wwdg
  | Spi2 | Spi3
  | Usart2 | Usart3 | Uart4 | Uart5
  | I2c1 | I2c2 | I2c3
  | Can1 | Can2
  | Pwr | Dac | Uart7 | Uart8
  | Tim1 | Tim8
  | Usart1 | Usart6
  | Adc1 | Adc2 | Adc3
  | Sdio | Spi1 | Spi4 | Syscfg
  | Tim9 | Tim10 | Tim11
  | Spi5 | Spi6 | Sai1 | Ltdc
deriving DecidableEq, Repr

/-- The packed discriminant (`self as u32`) of each APB peripheral. -/
def ApbPeripheral.encoding : ApbPeripheral → Nat
  | .Tim2 => periph_encoding ApbBus.Apb1.toRaw 0 1 1 1
  | .Tim3 => periph_encoding ApbBus.Apb1.toRaw 1 1 1 1
  | .Tim4 => periph_encoding ApbBus.Apb1.toRaw 2 1 1 1
  | .Tim5 => periph_encoding ApbBus.Apb1.toRaw 3 1 1 1
  | .Tim6 => periph_encoding ApbBus.Apb1.toRaw 4 1 1 1
  | .Tim7 => periph_encoding ApbBus.Apb1.toRaw 5 1 1 1
  | .Tim12 => periph_encoding ApbBus.Apb1.toRaw 6 1 1 1
  | .Tim13 => periph_encoding ApbBus.Apb1.toRaw 7 1 1 1
  | .Tim14 => periph_encoding ApbBus.Apb1.toRaw 8 1 1 1
  | .Wwdg => periph_encoding ApbBus.Apb1.toRaw 11 1 1 1
  | .Spi2 => periph_encoding ApbBus.Apb1.toRaw 14 1 1 1
  | .Spi3 => periph_encoding ApbBus.Apb1.toRaw 15 1 1 1
  | .Usart2 => periph_encoding ApbBus.Apb1.toRaw 17 1 1 1
  | .Usart3 => periph_encoding ApbBus.Apb1.toRaw 18 1 1 1
  | .Uart4 => periph_encoding ApbBus.Apb1.toRaw 19 1 1 1
  | .Uart5 => periph_encoding ApbBus.Apb1.toRaw 20 1 1 1
  | .I2c1 => periph_encoding ApbBus.Apb1.toRaw 21 1 1 1
  | .I2c2 => periph_encoding ApbBus.Apb1.toRaw 22 1 1 1
  | .I2c3 => periph_encoding ApbBus.Apb1.toRaw 23 1 1 1
  | .Can1 => periph_encoding ApbBus.Apb1.toRaw 25 1 1 1
  | .Can2 => periph_encoding ApbBus.Apb1.toRaw 26 1 1 1
  | .Pwr => periph_encoding ApbBus.Apb1.toRaw 28 1 1 1
  | .Dac => periph_encoding ApbBus.Apb1.toRaw 29 1 1 1
  | .Uart7 => periph_encoding ApbBus.Apb1.toRaw 30 1 1 1
  | .Uart8 => periph_encoding ApbBus.Apb1.toRaw 31 1 1 1
  | .Tim1 => periph_encoding ApbBus.Apb2.toRaw 0 1 1 1
  | .Tim8 => periph_encoding ApbBus.Apb2.toRaw 1 1 1 1
  | .Usart1 => periph_encoding ApbBus.Apb2.toRaw 4 1 1 1
  | .Usart6 => periph_encoding ApbBus.Apb2.toRaw 5 1 1 1
  | .Adc1 => periph_encoding ApbBus.Apb2.toRaw 8 1 1 1
  | .Adc2 => periph_encoding ApbBus.Apb2.toRaw 9 0 1 1
  | .Adc3 => periph_encoding ApbBus.Apb2.toRaw 10 0 1 1
  | .Sdio => periph_encoding ApbBus.Apb2.toRaw 11 1 1 1
  | .Spi1 => periph_encoding ApbBus.Apb2.toRaw 12 1 1 1
  | .Spi4 => periph_encoding ApbBus.Apb2.toRaw 13 1 1 1
  | .Syscfg => periph_encoding ApbBus.Apb2.toRaw 14 1 1 1
  | .Tim9 => periph_encoding ApbBus.Apb2.toRaw 16 1 1 1
  | .Tim10 => periph_encoding ApbBus.Apb2.toRaw 17 1 1 1
  | .Tim11 => periph_encoding ApbBus.Apb2.toRaw 18 1 1 1
  | .Spi5 => periph_encoding ApbBus.Apb2.toRaw 20 1 1 1
  | .Spi6 => periph_encoding ApbBus.Apb2.toRaw 21 1 1 1
  | .Sai1 => periph_encoding ApbBus.Apb2.toRaw 22 1 1 1
  | .Ltdc => periph_encoding ApbBus.Apb2.toRaw 26 1 1 1

def ApbPeripheral.get_bus (p : ApbPeripheral) : Nat := p.encoding &&& 0xF

def ApbPeripheral.get_bit_index (p : ApbPeripheral) : Nat :=
  (p.encoding >>> 8) &&& 0x1F

def ApbPeripheral.has_rst (p : ApbPeripheral) : Bool :=
  (p.encoding &&& (1 <<< 16)) != 0

def ApbPeripheral.has_enr (p : ApbPeripheral) : Bool :=
  (p.encoding &&& (1 <<< 17)) != 0

def ApbPeripheral.has_lpenr (p : ApbPeripheral) : Bool :=
  (p.encoding &&& (1 <<< 18)) != 0

/-- The RCC's hardware register layout (`Registers` in `rcc/raw.rs`);
register arrays are modelled as index-to-content functions, reserved
padding words are omitted. -/
structure RccRegisters where
  cr : Nat
  pllcfgr : Nat
  cfgr : Nat
  cir : Nat
  ahb_rstr : Nat → Nat
  apb_rstr : Nat → Nat
  ahb_enr : Nat → Nat
  apb_enr : Nat → Nat
  ahb_lpenr : Nat → Nat
  apb_lpenr : Nat → Nat
  bdcr : Nat
  csr : Nat
  sscgr : Nat
  plli2scfgr : Nat

/-- `<AhbPeripheral as PeripheralName>::enable_clock`: `panic!` (modelled
as `none`) when the peripheral has no ENR bit, otherwise an `atomic_or`
of `1 << get_bit_index()` into `ahb_enr[get_bus()]`. -/
def AhbPeripheral.enable_clock (p : AhbPeripheral) (r : RccRegisters) :
    Option RccRegisters :=
  if !p.has_enr then
    none
  else
    some { r with ahb_enr := fun j =>
      if j = p.get_bus then r.ahb_enr j ||| (1 <<< p.get_bit_index)
      else r.ahb_enr j }

/-- `<ApbPeripheral as PeripheralName>::enable_clock`. -/
def ApbPeripheral.enable_clock (p : ApbPeripheral) (r : RccRegisters) :
    Option RccRegisters :=
  if !p.has_enr then
    none
  else
    some { r with apb_enr := fun j =>
      if j = p.get_bus then r.apb_enr j ||| (1 <<< p.get_bit_index)
      else r.apb_enr j }

/-!
### Exclusive load/store retry loop (`arm_m/reg.rs`, `AtomicReg::atomic_or`)

Modelled from the spec: `atomic_or` is implemented as inline ARMv7-M
assembly (`ldrex` / `orrs` / `strex` in a retry loop), whose semantics is
not expressible as Rust source; the spec describes it as "load, modify
locally, attempt exclusive store, retry on failure", the exclusive store
failing when the reservation was lost to a racing store.  The model below
is that loop as a small-step machine: a foreground thread running
`atomic_or maskA` on a shared register, preemptible at any step boundary
by an interrupt handler whose own `atomic_or maskB` runs to completion
(clearing the foreground's exclusive reservation, as any racing store and
the exception return do).
-/

/-- Foreground position inside the `ldrex`/`strex` retry loop. -/
inductive FgPc
  | start
  | loaded
  | done
deriving DecidableEq, Repr

/-- Modelled from the spec: machine state for the exclusive-monitor model
of `atomic_or` — the shared register, whether the foreground's exclusive
reservation is intact, the foreground's locally loaded value, and its
position in the loop. -/
structure AtomicState where
  reg : Nat
  monitor : Bool
  held : Nat
  pc : FgPc
deriving DecidableEq, Repr

/-- Modelled from the spec: one foreground step of
`atomic_or(mask)`: `ldrex` loads the register and takes the reservation;
`strex` stores `held | mask` if the reservation is intact, else the loop
restarts. -/
def fg_step (mask : Nat) (s : AtomicState) : AtomicState :=
  match s.pc with
  | .start => { s with held := s.reg, monitor := true, pc := .loaded }
  | .loaded =>
      if s.monitor then { s with reg := s.held ||| mask, pc := .done }
      else { s with pc := .start }
  | .done => s

/-- Modelled from the spec: the interrupt handler's own
`atomic_or(mask)` runs to completion with nothing racing it, so its net
effect is a single atomic OR; its store (and the exception return) clears
the foreground's exclusive reservation. -/
def irq_atomic_or (mask : Nat) (s : AtomicState) : AtomicState :=
  { s with reg := s.reg ||| mask, monitor := false }

/-- Run the foreground loop to completion (fuel-bounded; 4 steps suffice
after a single preemption). -/
def run_fg (mask : Nat) : Nat → AtomicState → AtomicState
  | 0, s => s
  | n + 1, s => if s.pc = .done then s else run_fg mask n (fg_step mask s)

/-- Modelled from the spec: foreground `atomic_or maskA` starting from
register content `r0`, preempted after `k` of its steps by a handler
doing `atomic_or maskB`, then running to completion. -/
def enable_race (maskA maskB r0 : Nat) (k : Nat) : AtomicState :=
  run_fg maskA 4
    (irq_atomic_or maskB
      ((fg_step maskA)^[k] { reg := r0, monitor := false, held := 0, pc := .start }))

theorem enable_race_spec (maskA maskB r0 k : Nat) :
    (enable_race maskA maskB r0 k).pc = .done ∧
    ((enable_race maskA maskB r0 k).reg = r0 ||| maskB ||| maskA ∨
     (enable_race maskA maskB r0 k).reg = r0 ||| maskA ||| maskB) := by
  match k with
  | 0 =>
    constructor
    · rfl
    · left; rfl
  | 1 =>
    constructor
    · rfl
    · left; rfl
  | k + 2 =>
    have hdone : (fg_step maskA)^[k + 2]
        { reg := r0, monitor := false, held := 0, pc := .start }
        = { reg := r0 ||| maskA, monitor := true, held := r0,
            pc := .done } := by
      have h2 : (fg_step maskA)^[k + 2]
          { reg := r0, monitor := false, held := 0, pc := .start }
          = (fg_step maskA)^[k]
            ((fg_step maskA)^[2]
              { reg := r0, monitor := false, held := 0, pc := .start }) := by
        rw [← Function.iterate_add_apply]
      rw [h2]
      have h3 : (fg_step maskA)^[2]
          { reg := r0, monitor := false, held := 0, pc := .start }
          = { reg := r0 ||| maskA, monitor := true, held := r0,
              pc := .done } := rfl
      rw [h3]
      exact Function.iterate_fixed rfl k
    constructor
    · unfold enable_race
      rw [hdone]
      rfl
    · right
      unfold enable_race
      rw [hdone]
      rfl

/-! ### Round-trip facts for the semantic field types -/

theorem bool_from_bits_into (r : Nat) (v : Bool)
    (h : bool_from_bits r = .ok v) : bool_into_bits v = r := by
  rcases r with _|_|r
  · cases h; rfl
  · cases h; rfl
  · exact Except.noConfusion h

theorem bool_from_bits_total_into (r : Nat) (v : Bool)
    (h : bool_from_bits_total r = some v) : bool_into_bits v = r := by
  rcases r with _|_|r
  · cases h; rfl
  · cases h; rfl
  · exact Option.noConfusion h

theorem bool_from_bits_ge_two (b : Nat) (h : 2 ≤ b) :
    bool_from_bits b = .error ⟨b⟩ := by
  rcases b with _|_|b
  · omega
  · omega
  · rfl

theorem bool_from_bits_total_ge_two (b : Nat) (h : 2 ≤ b) :
    bool_from_bits_total b = none := by
  rcases b with _|_|b
  · omega
  · omega
  · rfl

theorem mco2_from_bits_into (r : Nat) (v : Mco2)
    (h : Mco2.from_bits r = .ok v) : v.into_bits = r := by
  rcases r with _|_|_|_|r <;> first | (cases h; rfl) | exact Except.noConfusion h

theorem mco2_from_bits_total_into (r : Nat) (v : Mco2)
    (h : Mco2.from_bits_total r = some v) : v.into_bits = r := by
  rcases r with _|_|_|_|r <;> first | (cases h; rfl) | exact Option.noConfusion h

theorem mcopre_from_bits_into (r : Nat) (v : McoPre)
    (h : McoPre.from_bits r = .ok v) : v.into_bits = r := by
  rcases r with _|_|_|_|r <;> first | (cases h; rfl) | exact Except.noConfusion h

theorem mcopre_from_bits_total_into (r : Nat) (v : McoPre)
    (h : McoPre.from_bits_total r = some v) : v.into_bits = r := by
  rcases r with _|_|_|_|r <;> first | (cases h; rfl) | exact Option.noConfusion h

theorem i2ssrc_from_bits_into (r : Nat) (v : I2sSrc)
    (h : I2sSrc.from_bits r = .ok v) : v.into_bits = r := by
  rcases r with _|_|r <;> first | (cases h; rfl) | exact Except.noConfusion h

theorem i2ssrc_from_bits_total_into (r : Nat) (v : I2sSrc)
    (h : I2sSrc.from_bits_total r = some v) : v.into_bits = r := by
  rcases r with _|_|r <;> first | (cases h; rfl) | exact Option.noConfusion h

theorem mco1_from_bits_into (r : Nat) (v : Mco1)
    (h : Mco1.from_bits r = .ok v) : v.into_bits = r := by
  rcases r with _|_|_|_|r <;> first | (cases h; rfl) | exact Except.noConfusion h

theorem mco1_from_bits_total_into (r : Nat) (v : Mco1)
    (h : Mco1.from_bits_total r = some v) : v.into_bits = r := by
  rcases r with _|_|_|_|r <;> first | (cases h; rfl) | exact Option.noConfusion h

theorem apb_prescaler_from_bits_into (r : Nat) (v : ApbPrescaler)
    (h : ApbPrescaler.from_bits r = .ok v) : v.into_bits = r := by
  rcases r with _|_|_|_|r <;> first | (cases h; rfl) | exact Except.noConfusion h

theorem apb_prescaler_from_bits_total_into (r : Nat) (v : ApbPrescaler)
    (h : ApbPrescaler.from_bits_total r = some v) : v.into_bits = r := by
  rcases r with _|_|_|_|r <;> first | (cases h; rfl) | exact Option.noConfusion h

theorem ahb_prescaler_from_bits_into (r : Nat) (v : AhbPrescaler)
    (h : AhbPrescaler.from_bits r = .ok v) : v.into_bits = r := by
  rcases r with _|_|_|_|_|_|_|_|r <;>
    first | (cases h; rfl) | exact Except.noConfusion h

theorem ahb_prescaler_from_bits_total_into (r : Nat) (v : AhbPrescaler)
    (h : AhbPrescaler.from_bits_total r = some v) : v.into_bits = r := by
  rcases r with _|_|_|_|_|_|_|_|r <;>
    first | (cases h; rfl) | exact Option.noConfusion h

theorem clock_switch_from_bits_into (r : Nat) (v : ClockSwitch)
    (h : ClockSwitch.from_bits r = .ok v) : v.into_bits = r := by
  rcases r with _|_|_|r <;> first | (cases h; rfl) | exact Except.noConfusion h

theorem clock_switch_from_bits_total_into (r : Nat) (v : ClockSwitch)
    (h : ClockSwitch.from_bits_total r = some v) : v.into_bits = r := by
  rcases r with _|_|_|r <;> first | (cases h; rfl) | exact Option.noConfusion h

theorem pll_source_from_bits_into (r : Nat) (v : PllSource)
    (h : PllSource.from_bits r = .ok v) : v.into_bits = r := by
  rcases r with _|_|r <;> first | (cases h; rfl) | exact Except.noConfusion h

theorem pll_source_from_bits_total_into (r : Nat) (v : PllSource)
    (h : PllSource.from_bits_total r = some v) : v.into_bits = r := by
  rcases r with _|_|r <;> first | (cases h; rfl) | exact Option.noConfusion h

theorem pllp_from_bits_into (r : Nat) (v : Pllp)
    (h : Pllp.from_bits r = .ok v) : v.into_bits = r := by
  rcases r with _|_|_|_|r <;> first | (cases h; rfl) | exact Except.noConfusion h

theorem pllp_from_bits_total_into (r : Nat) (v : Pllp)
    (h : Pllp.from_bits_total r = some v) : v.into_bits = r := by
  rcases r with _|_|_|_|r <;> first | (cases h; rfl) | exact Option.noConfusion h

/-- C2: for every semantic field type (bool and every `bit_enum` used in
the RCC register maps: ClockSwitch, AhbPrescaler, ApbPrescaler, Pllp,
PllSource, Mco1, Mco2, McoPre, I2sSrc), encoding is the exact
left-inverse of decoding on the valid domain — `from_bits r = Ok v`
implies `into_bits v = r`, and `from_bits_total r = v` (no panic) implies
`into_bits v = r` — and for `bool` the valid domain is exactly 0 ↦ false
and 1 ↦ true, nothing else. -/
theorem semantic_field_round_trip :
    (∀ r v, bool_from_bits r = .ok v → bool_into_bits v = r) ∧
    (∀ r v, bool_from_bits_total r = some v → bool_into_bits v = r) ∧
    (bool_from_bits 0 = .ok false ∧ bool_from_bits 1 = .ok true ∧
      (∀ b, 2 ≤ b → bool_from_bits b = .error ⟨b⟩)) ∧
    (bool_from_bits_total 0 = some false ∧
      bool_from_bits_total 1 = some true ∧
      (∀ b, 2 ≤ b → bool_from_bits_total b = none)) ∧
    (∀ r v, ClockSwitch.from_bits r = .ok v → ClockSwitch.into_bits v = r) ∧
    (∀ r v, ClockSwitch.from_bits_total r = some v →
      ClockSwitch.into_bits v = r) ∧
    (∀ r v, AhbPrescaler.from_bits r = .ok v → AhbPrescaler.into_bits v = r) ∧
    (∀ r v, AhbPrescaler.from_bits_total r = some v →
      AhbPrescaler.into_bits v = r) ∧
    (∀ r v, ApbPrescaler.from_bits r = .ok v → ApbPrescaler.into_bits v = r) ∧
    (∀ r v, ApbPrescaler.from_bits_total r = some v →
      ApbPrescaler.into_bits v = r) ∧
    (∀ r v, Pllp.from_bits r = .ok v → Pllp.into_bits v = r) ∧
    (∀ r v, Pllp.from_bits_total r = some v → Pllp.into_bits v = r) ∧
    (∀ r v, PllSource.from_bits r = .ok v → PllSource.into_bits v = r) ∧
    (∀ r v, PllSource.from_bits_total r = some v →
      PllSource.into_bits v = r) ∧
    (∀ r v, Mco1.from_bits r = .ok v → Mco1.into_bits v = r) ∧
    (∀ r v, Mco1.from_bits_total r = some v → Mco1.into_bits v = r) ∧
    (∀ r v, Mco2.from_bits r = .ok v → Mco2.into_bits v = r) ∧
    (∀ r v, Mco2.from_bits_total r = some v → Mco2.into_bits v = r) ∧
    (∀ r v, McoPre.from_bits r = .ok v → McoPre.into_bits v = r) ∧
    (∀ r v, McoPre.from_bits_total r = some v → McoPre.into_bits v = r) ∧
    (∀ r v, I2sSrc.from_bits r = .ok v → I2sSrc.into_bits v = r) ∧
    (∀ r v, I2sSrc.from_bits_total r = some v → I2sSrc.into_bits v = r) :=
  ⟨bool_from_bits_into, bool_from_bits_total_into,
    ⟨rfl, rfl, bool_from_bits_ge_two⟩,
    ⟨rfl, rfl, bool_from_bits_total_ge_two⟩,
    clock_switch_from_bits_into, clock_switch_from_bits_total_into,
    ahb_prescaler_from_bits_into, ahb_prescaler_from_bits_total_into,
    apb_prescaler_from_bits_into, apb_prescaler_from_bits_total_into,
    pllp_from_bits_into, pllp_from_bits_total_into,
    pll_source_from_bits_into, pll_source_from_bits_total_into,
    mco1_from_bits_into, mco1_from_bits_total_into,
    mco2_from_bits_into, mco2_from_bits_total_into,
    mcopre_from_bits_into, mcopre_from_bits_total_into,
    i2ssrc_from_bits_into, i2ssrc_from_bits_total_into⟩

/-- Witness for C2: the law applied at concrete inputs, discharging each
hypothesis (`ClockSwitch.from_bits 2 = Ok Pll`, `bool_from_bits_total 1 =
some true`, `bool_from_bits 5` rejected). -/
theorem semantic_field_round_trip_witness :
    ClockSwitch.into_bits .Pll = 2 ∧ bool_into_bits true = 1 ∧
    bool_from_bits 5 = .error ⟨5⟩ :=
  ⟨semantic_field_round_trip.2.2.2.2.1 2 .Pll rfl,
    semantic_field_round_trip.2.1 1 true rfl,
    semantic_field_round_trip.2.2.1.2.2 5 (by omega)⟩

/-- C5: a Partial field type decodes an invalid raw pattern to the
`BadBits` error carrying exactly the offending raw value, never a
default: `ClockSwitch::from_bits(0b11) == Err(BadBits(0b11))`, and for
every `b >= 2`, `bool::from_bits(b) == Err(BadBits(b))`. -/
theorem partial_field_bad_bits_rejection :
    ClockSwitch.from_bits 0b11 = .error ⟨0b11⟩ ∧
    ∀ b, 2 ≤ b → bool_from_bits b = .error ⟨b⟩ :=
  ⟨rfl, bool_from_bits_ge_two⟩

/-- Witness for C5: the rejection facts applied at `r = 3` and `b = 7`. -/
theorem partial_field_bad_bits_rejection_witness :
    ClockSwitch.from_bits 3 = .error ⟨3⟩ ∧
    bool_from_bits 7 = .error ⟨7⟩ :=
  ⟨partial_field_bad_bits_rejection.1,
    partial_field_bad_bits_rejection.2 7 (by omega)⟩

/-- C3: `bitfield_replace(orig, hi, lo, new)` equals `orig` outside
`[lo, hi]`, equals the low `hi - lo + 1` bits of `new` inside `[lo, hi]`,
discards the high bits of `new` (agreeing with `new mod 2^width`), and in
the maximal-width case `lo = 0`, `hi = 31` returns exactly `new` (the
mask does not wrap to zero). -/
theorem bitfield_replace_spec (orig new lo hi : Nat)
    (h1 : lo ≤ hi) (h2 : hi ≤ 31) (h3 : orig < 2 ^ 32) (h4 : new < 2 ^ 32) :
    (∀ i, i < lo ∨ hi < i →
      (bitfield_replace orig hi lo new).testBit i = orig.testBit i) ∧
    (∀ i, lo ≤ i → i ≤ hi →
      (bitfield_replace orig hi lo new).testBit i = new.testBit (i - lo)) ∧
    bitfield_replace orig hi lo new
      = bitfield_replace orig hi lo (new % 2 ^ (hi - lo + 1)) ∧
    (lo = 0 → hi = 31 → bitfield_replace orig hi lo new = new) := by
  refine ⟨?_, ?_, bitfield_replace_mod orig hi lo new h1 h2, ?_⟩
  · intro i hout
    rw [testBit_bitfield_replace _ _ _ _ _ h1 h2, if_neg (by omega)]
    by_cases hc : i < 32
    · simp [hc]
    · simp [hc, testBit_eq_false_of_lt_32 orig i h3 (by omega)]
  · intro i hge hle
    rw [testBit_bitfield_replace _ _ _ _ _ h1 h2, if_pos ⟨hge, hle⟩]
  · intro hl hh
    subst hl; subst hh
    exact bitfield_replace_full orig new h4

/-- Witness for C3: the spec applied to the 2-bit field `[17:16]` of a
concrete word with `new = 0b110`, whose high bit is discarded, and to the
maximal-width field of a concrete word. -/
theorem bitfield_replace_spec_witness :
    bitfield_replace 0x12345678 17 16 6
      = bitfield_replace 0x12345678 17 16 (6 % 2 ^ (17 - 16 + 1)) ∧
    (bitfield_replace 0x12345678 17 16 6).testBit 16
      = (6 : Nat).testBit 0 ∧
    (bitfield_replace 0x12345678 17 16 6).testBit 20
      = (0x12345678 : Nat).testBit 20 ∧
    bitfield_replace 0xDEADBEEF 31 0 0xCAFEBABE = 0xCAFEBABE :=
  ⟨(bitfield_replace_spec 0x12345678 6 16 17 (by omega) (by omega)
      (by norm_num) (by norm_num)).2.2.1,
   (bitfield_replace_spec 0x12345678 6 16 17 (by omega) (by omega)
      (by norm_num) (by norm_num)).2.1 16 (by omega) (by omega),
   (bitfield_replace_spec 0x12345678 6 16 17 (by omega) (by omega)
      (by norm_num) (by norm_num)).1 20 (by omega),
   (bitfield_replace_spec 0xDEADBEEF 0xCAFEBABE 0 31 (by omega) (by omega)
      (by norm_num) (by norm_num)).2.2.2 rfl rfl⟩

/-- C8: for every 32-bit word and every bit range `0 ≤ lo ≤ hi ≤ 31`,
extracting a field and replacing it with the extracted value reproduces
the original word exactly. -/
theorem extract_replace_round_trip (raw lo hi : Nat)
    (h1 : raw < 2 ^ 32) (h2 : lo ≤ hi) (h3 : hi ≤ 31) :
    bitfield_replace raw hi lo (bitfield_extract raw hi lo) = raw :=
  bitfield_replace_extract_self raw hi lo h1 h2 h3

/-- Witness for C8: the round trip at a concrete word and field. -/
theorem extract_replace_round_trip_witness :
    bitfield_replace 0xABCDEF12 11 4
      (bitfield_extract 0xABCDEF12 11 4) = 0xABCDEF12 :=
  extract_replace_round_trip 0xABCDEF12 4 11 (by norm_num) (by omega)
    (by omega)

/-! ### Totality of the `total`-declared field types -/

theorem bool_total_width1 :
    ∀ r < 2 ^ 1, (bool_from_bits_total r).isSome = true := by decide

set_option maxRecDepth 4000 in
theorem u8_total_width8 :
    ∀ r < 2 ^ 8, (u8_from_bits_total r).isSome = true := by decide

theorem mco2_total_width2 :
    ∀ r < 2 ^ 2, (Mco2.from_bits_total r).isSome = true := by decide

theorem mcopre_total_width2 :
    ∀ r < 2 ^ 2, (McoPre.from_bits_total r).isSome = true := by decide

theorem i2ssrc_total_width1 :
    ∀ r < 2 ^ 1, (I2sSrc.from_bits_total r).isSome = true := by decide

theorem mco1_total_width2 :
    ∀ r < 2 ^ 2, (Mco1.from_bits_total r).isSome = true := by decide

theorem apb_prescaler_total_width2 :
    ∀ r < 2 ^ 2, (ApbPrescaler.from_bits_total r).isSome = true := by decide

theorem ahb_prescaler_total_width3 :
    ∀ r < 2 ^ 3, (AhbPrescaler.from_bits_total r).isSome = true := by decide

theorem pllsource_total_width1 :
    ∀ r < 2 ^ 1, (PllSource.from_bits_total r).isSome = true := by decide

theorem pllp_total_width2 :
    ∀ r < 2 ^ 2, (Pllp.from_bits_total r).isSome = true := by decide

theorem u32_total_any : ∀ r : Nat, (u32_from_bits_total r).isSome = true :=
  fun _ => rfl

theorem extract_lt_pow (v hi lo w : Nat) (h : hi ≤ 31)
    (hw : hi - lo + 1 = w) : bitfield_extract v hi lo < 2 ^ w :=
  hw ▸ bitfield_extract_lt v hi lo h

/-- C4: every field declared `total` in the `Cr`, `Cfgr`, `Pllcfgr` and
`Acr` accessor tables decodes every raw pattern in `[0, 2^width)` of its
declared width without reaching the panic branch of `from_bits_total`
(equivalently, every total getter is `some` on every raw register word);
the 2-bit SW and SWS fields, typed as the 3-valued `ClockSwitch`, are
wired to the fallible `from_bits` decoder instead — and indeed
`ClockSwitch` does not cover the fourth 2-bit pattern. -/
theorem total_fields_domain_complete :
    (∀ r < 2 ^ 1, (bool_from_bits_total r).isSome = true) ∧
    (∀ r < 2 ^ 8, (u8_from_bits_total r).isSome = true) ∧
    (∀ r : Nat, (u32_from_bits_total r).isSome = true) ∧
    (∀ r < 2 ^ 2, (Mco2.from_bits_total r).isSome = true) ∧
    (∀ r < 2 ^ 2, (McoPre.from_bits_total r).isSome = true) ∧
    (∀ r < 2 ^ 1, (I2sSrc.from_bits_total r).isSome = true) ∧
    (∀ r < 2 ^ 2, (Mco1.from_bits_total r).isSome = true) ∧
    (∀ r < 2 ^ 2, (ApbPrescaler.from_bits_total r).isSome = true) ∧
    (∀ r < 2 ^ 3, (AhbPrescaler.from_bits_total r).isSome = true) ∧
    (∀ r < 2 ^ 1, (PllSource.from_bits_total r).isSome = true) ∧
    (∀ r < 2 ^ 2, (Pllp.from_bits_total r).isSome = true) ∧
    (∀ v, (Cr.get_plli2srdy v).isSome = true) ∧
    (∀ v, (Cr.get_plli2son v).isSome = true) ∧
    (∀ v, (Cr.get_pllrdy v).isSome = true) ∧
    (∀ v, (Cr.get_pllon v).isSome = true) ∧
    (∀ v, (Cr.get_csson v).isSome = true) ∧
    (∀ v, (Cr.get_hsebyp v).isSome = true) ∧
    (∀ v, (Cr.get_hserdy v).isSome = true) ∧
    (∀ v, (Cr.get_hseon v).isSome = true) ∧
    (∀ v, (Cr.get_hsical v).isSome = true) ∧
    (∀ v, (Cr.get_hsitrim v).isSome = true) ∧
    (∀ v, (Cr.get_hsirdy v).isSome = true) ∧
    (∀ v, (Cr.get_hsion v).isSome = true) ∧
    (∀ v, (Cfgr.get_mco2 v).isSome = true) ∧
    (∀ v, (Cfgr.get_mco2pre_en v).isSome = true) ∧
    (∀ v, (Cfgr.get_mco2pre_div v).isSome = true) ∧
    (∀ v, (Cfgr.get_mco1pre_en v).isSome = true) ∧
    (∀ v, (Cfgr.get_mco1pre_div v).isSome = true) ∧
    (∀ v, (Cfgr.get_i2ssrc v).isSome = true) ∧
    (∀ v, (Cfgr.get_mco1 v).isSome = true) ∧
    (∀ v, (Cfgr.get_ppre2_en v).isSome = true) ∧
    (∀ v, (Cfgr.get_ppre2_div v).isSome = true) ∧
    (∀ v, (Cfgr.get_ppre1_en v).isSome = true) ∧
    (∀ v, (Cfgr.get_ppre1_div v).isSome = true) ∧
    (∀ v, (Cfgr.get_hpre_en v).isSome = true) ∧
    (∀ v, (Cfgr.get_hpre_div v).isSome = true) ∧
    (∀ v, (Pllcfgr.get_pllq v).isSome = true) ∧
    (∀ v, (Pllcfgr.get_pllsrc v).isSome = true) ∧
    (∀ v, (Pllcfgr.get_pllp v).isSome = true) ∧
    (∀ v, (Pllcfgr.get_plln v).isSome = true) ∧
    (∀ v, (Pllcfgr.get_pllm v).isSome = true) ∧
    (∀ v, (Acr.get_dcrst v).isSome = true) ∧
    (∀ v, (Acr.get_icrst v).isSome = true) ∧
    (∀ v, (Acr.get_dcen v).isSome = true) ∧
    (∀ v, (Acr.get_icen v).isSome = true) ∧
    (∀ v, (Acr.get_prften v).isSome = true) ∧
    (∀ v, (Acr.get_latency v).isSome = true) ∧
    ClockSwitch.from_bits_total 0b11 = none ∧
    (∀ v, Cfgr.get_sw v = ClockSwitch.from_bits (bitfield_extract v 1 0)) ∧
    (∀ v, Cfgr.get_sws v = ClockSwitch.from_bits (bitfield_extract v 3 2)) :=
  ⟨bool_total_width1, u8_total_width8, u32_total_any,
   mco2_total_width2, mcopre_total_width2, i2ssrc_total_width1,
   mco1_total_width2, apb_prescaler_total_width2,
   ahb_prescaler_total_width3, pllsource_total_width1, pllp_total_width2,
   fun v => bool_total_width1 _ (extract_lt_pow v 27 27 1 (by omega) rfl),
   fun v => bool_total_width1 _ (extract_lt_pow v 26 26 1 (by omega) rfl),
   fun v => bool_total_width1 _ (extract_lt_pow v 25 25 1 (by omega) rfl),
   fun v => bool_total_width1 _ (extract_lt_pow v 24 24 1 (by omega) rfl),
   fun v => bool_total_width1 _ (extract_lt_pow v 19 19 1 (by omega) rfl),
   fun v => bool_total_width1 _ (extract_lt_pow v 18 18 1 (by omega) rfl),
   fun v => bool_total_width1 _ (extract_lt_pow v 17 17 1 (by omega) rfl),
   fun v => bool_total_width1 _ (extract_lt_pow v 16 16 1 (by omega) rfl),
   fun v => u8_total_width8 _ (extract_lt_pow v 15 8 8 (by omega) rfl),
   fun v => rfl,
   fun v => bool_total_width1 _ (extract_lt_pow v 1 1 1 (by omega) rfl),
   fun v => bool_total_width1 _ (extract_lt_pow v 0 0 1 (by omega) rfl),
   fun v => mco2_total_width2 _ (extract_lt_pow v 31 30 2 (by omega) rfl),
   fun v => bool_total_width1 _ (extract_lt_pow v 29 29 1 (by omega) rfl),
   fun v => mcopre_total_width2 _ (extract_lt_pow v 28 27 2 (by omega) rfl),
   fun v => bool_total_width1 _ (extract_lt_pow v 26 26 1 (by omega) rfl),
   fun v => mcopre_total_width2 _ (extract_lt_pow v 25 24 2 (by omega) rfl),
   fun v => i2ssrc_total_width1 _ (extract_lt_pow v 23 23 1 (by omega) rfl),
   fun v => mco1_total_width2 _ (extract_lt_pow v 22 21 2 (by omega) rfl),
   fun v => bool_total_width1 _ (extract_lt_pow v 15 15 1 (by omega) rfl),
   fun v => apb_prescaler_total_width2 _
     (extract_lt_pow v 14 13 2 (by omega) rfl),
   fun v => bool_total_width1 _ (extract_lt_pow v 12 12 1 (by omega) rfl),
   fun v => apb_prescaler_total_width2 _
     (extract_lt_pow v 11 10 2 (by omega) rfl),
   fun v => bool_total_width1 _ (extract_lt_pow v 7 7 1 (by omega) rfl),
   fun v => ahb_prescaler_total_width3 _
     (extract_lt_pow v 6 4 3 (by omega) rfl),
   fun v => rfl,
   fun v => pllsource_total_width1 _ (extract_lt_pow v 22 22 1 (by omega) rfl),
   fun v => pllp_total_width2 _ (extract_lt_pow v 17 16 2 (by omega) rfl),
   fun v => rfl,
   fun v => rfl,
   fun v => bool_total_width1 _ (extract_lt_pow v 12 12 1 (by omega) rfl),
   fun v => bool_total_width1 _ (extract_lt_pow v 11 11 1 (by omega) rfl),
   fun v => bool_total_width1 _ (extract_lt_pow v 10 10 1 (by omega) rfl),
   fun v => bool_total_width1 _ (extract_lt_pow v 9 9 1 (by omega) rfl),
   fun v => bool_total_width1 _ (extract_lt_pow v 8 8 1 (by omega) rfl),
   fun v => rfl,
   rfl,
   fun _ => rfl,
   fun _ => rfl⟩

/-- Witness for C4: the bounded totality facts applied at concrete raw
patterns, discharging the range hypotheses. -/
theorem total_fields_domain_complete_witness :
    (AhbPrescaler.from_bits_total 0b111).isSome = true ∧
    (ApbPrescaler.from_bits_total 0b11).isSome = true ∧
    (Mco2.from_bits_total 0b11).isSome = true ∧
    (u8_from_bits_total 255).isSome = true ∧
    (Cfgr.get_hpre_div 0xFFFFFFFF).isSome = true :=
  ⟨total_fields_domain_complete.2.2.2.2.2.2.2.2.1 7 (by omega),
   total_fields_domain_complete.2.2.2.2.2.2.2.1 3 (by omega),
   total_fields_domain_complete.2.2.2.1 3 (by omega),
   total_fields_domain_complete.2.1 255 (by omega),
   (total_fields_domain_complete.2.2.2.2.2.2.2.2.2.2.2.2.2.2.2.2.2.2.2.2.2.2.2.2.2.2.2.2.2.2.2.2.2.2.1) 0xFFFFFFFF⟩

/-- Every intermediate value of `compute_speeds` at the C6 inputs is an
integer `m * 2^e` with `m < 2^24`, hence exactly representable in IEEE
binary32; each f32 division/multiplication there has an exactly
representable exact result, so the source's f32 arithmetic agrees with
the `ℚ` model at these inputs. -/
theorem compute_speeds_exact_in_binary32 :
    (8000000 : ℚ) = 15625 * 2 ^ 9 ∧ (2000000 : ℚ) = 15625 * 2 ^ 7 ∧
    (320000000 : ℚ) = 78125 * 2 ^ 12 ∧ (160000000 : ℚ) = 78125 * 2 ^ 11 ∧
    (40000000 : ℚ) = 78125 * 2 ^ 9 ∧ (80000000 : ℚ) = 78125 * 2 ^ 10 ∧
    (15625 : ℚ) < 2 ^ 24 ∧ (78125 : ℚ) < 2 ^ 24 := by
  norm_num

/-- C6: `compute_speeds` is a pure function of the `ClockConfig` (a `None`
bus divisor divides by 1), and at crystal 8 MHz, input divisor 4, VCO
multiplier 160, general divisor `Div2`, AHB divisor `None`, APB1 `Div4`,
APB2 `Div2` it yields CPU = AHB = 160 MHz, APB1 = 40 MHz, APB2 = 80 MHz,
for every choice of the PLL48 divisor and Flash latency. -/
theorem compute_speeds_example (q l : Nat) :
    (({ crystal_hz := 8000000, crystal_divisor := 4, vco_multiplier := 160,
        general_divisor := .Div2, pll48_divisor := q, ahb_divisor := none,
        apb1_divisor := some .Div4, apb2_divisor := some .Div2,
        flash_latency := l } : ClockConfig).compute_speeds).cpu
        = 160000000 ∧
    (({ crystal_hz := 8000000, crystal_divisor := 4, vco_multiplier := 160,
        general_divisor := .Div2, pll48_divisor := q, ahb_divisor := none,
        apb1_divisor := some .Div4, apb2_divisor := some .Div2,
        flash_latency := l } : ClockConfig).compute_speeds).ahb
        = 160000000 ∧
    (({ crystal_hz := 8000000, crystal_divisor := 4, vco_multiplier := 160,
        general_divisor := .Div2, pll48_divisor := q, ahb_divisor := none,
        apb1_divisor := some .Div4, apb2_divisor := some .Div2,
        flash_latency := l } : ClockConfig).compute_speeds).apb1
        = 40000000 ∧
    (({ crystal_hz := 8000000, crystal_divisor := 4, vco_multiplier := 160,
        general_divisor := .Div2, pll48_divisor := q, ahb_divisor := none,
        apb1_divisor := some .Div4, apb2_divisor := some .Div2,
        flash_latency := l } : ClockConfig).compute_speeds).apb2
        = 80000000 ∧
    option_to_divisor AhbPrescaler.to_divisor (none : Option AhbPrescaler)
      = 1 ∧
    option_to_divisor ApbPrescaler.to_divisor (none : Option ApbPrescaler)
      = 1 := by
  refine ⟨?_, ?_, ?_, ?_, rfl, rfl⟩ <;>
    · simp [ClockConfig.compute_speeds, Pllp.to_divisor, option_to_divisor,
        AhbPrescaler.to_divisor, ApbPrescaler.to_divisor]
      norm_num

theorem testBit_or_shift_self (x k : Nat) :
    (x ||| (1 <<< k)).testBit k = true := by
  have h1 : (1 : Nat) <<< k = 2 ^ k := by rw [Nat.shiftLeft_eq, one_mul]
  simp [Nat.testBit_or, h1, Nat.testBit_two_pow_self]

theorem testBit_or_shift_ne (x k i : Nat) (h : i ≠ k) :
    (x ||| (1 <<< k)).testBit i = x.testBit i := by
  have h1 : (1 : Nat) <<< k = 2 ^ k := by rw [Nat.shiftLeft_eq, one_mul]
  simp [Nat.testBit_or, h1, Nat.testBit_two_pow_of_ne (Ne.symm h)]

/-- C7: for every peripheral identity (AHB or APB), `enable_clock` panics
exactly when the peripheral lacks clock-enable support (`has_enr` false:
FlashIface, Sram1, Sram2, ...); otherwise it sets exactly bit
`get_bit_index` of the clock-enable register of bus `get_bus`, leaves all
other bits of that register unchanged, and touches no other register. -/
theorem enable_clock_panic_iff_and_frame :
    (∀ (p : AhbPeripheral) (r : RccRegisters),
      (p.enable_clock r = none ↔ p.has_enr = false) ∧
      (∀ r2, p.enable_clock r = some r2 →
        (r2.ahb_enr p.get_bus).testBit p.get_bit_index = true ∧
        (∀ i, i ≠ p.get_bit_index →
          (r2.ahb_enr p.get_bus).testBit i
            = (r.ahb_enr p.get_bus).testBit i) ∧
        (∀ j, j ≠ p.get_bus → r2.ahb_enr j = r.ahb_enr j) ∧
        r2.cr = r.cr ∧ r2.pllcfgr = r.pllcfgr ∧ r2.cfgr = r.cfgr ∧
        r2.cir = r.cir ∧ r2.ahb_rstr = r.ahb_rstr ∧
        r2.apb_rstr = r.apb_rstr ∧ r2.apb_enr = r.apb_enr ∧
        r2.ahb_lpenr = r.ahb_lpenr ∧ r2.apb_lpenr = r.apb_lpenr ∧
        r2.bdcr = r.bdcr ∧ r2.csr = r.csr ∧ r2.sscgr = r.sscgr ∧
        r2.plli2scfgr = r.plli2scfgr)) ∧
    (∀ (p : ApbPeripheral) (r : RccRegisters),
      (p.enable_clock r = none ↔ p.has_enr = false) ∧
      (∀ r2, p.enable_clock r = some r2 →
        (r2.apb_enr p.get_bus).testBit p.get_bit_index = true ∧
        (∀ i, i ≠ p.get_bit_index →
          (r2.apb_enr p.get_bus).testBit i
            = (r.apb_enr p.get_bus).testBit i) ∧
        (∀ j, j ≠ p.get_bus → r2.apb_enr j = r.apb_enr j) ∧
        r2.cr = r.cr ∧ r2.pllcfgr = r.pllcfgr ∧ r2.cfgr = r.cfgr ∧
        r2.cir = r.cir ∧ r2.ahb_rstr = r.ahb_rstr ∧
        r2.apb_rstr = r.apb_rstr ∧ r2.ahb_enr = r.ahb_enr ∧
        r2.ahb_lpenr = r.ahb_lpenr ∧ r2.apb_lpenr = r.apb_lpenr ∧
        r2.bdcr = r.bdcr ∧ r2.csr = r.csr ∧ r2.sscgr = r.sscgr ∧
        r2.plli2scfgr = r.plli2scfgr)) := by
  constructor
  · intro p r
    constructor
    · unfold AhbPeripheral.enable_clock
      cases hb : p.has_enr <;> simp [hb]
    · intro r2 h2
      unfold AhbPeripheral.enable_clock at h2
      cases hb : p.has_enr
      · rw [hb] at h2
        simp at h2
      · rw [hb] at h2
        simp at h2
        subst h2
        refine ⟨?_, ?_, ?_, rfl, rfl, rfl, rfl, rfl, rfl, rfl, rfl, rfl,
          rfl, rfl, rfl, rfl⟩
        · simp [testBit_or_shift_self]
        · intro i hi
          simp [testBit_or_shift_ne _ _ _ hi]
        · intro j hj
          simp [hj]
  · intro p r
    constructor
    · unfold ApbPeripheral.enable_clock
      cases hb : p.has_enr <;> simp [hb]
    · intro r2 h2
      unfold ApbPeripheral.enable_clock at h2
      cases hb : p.has_enr
      · rw [hb] at h2
        simp at h2
      · rw [hb] at h2
        simp at h2
        subst h2
        refine ⟨?_, ?_, ?_, rfl, rfl, rfl, rfl, rfl, rfl, rfl, rfl, rfl,
          rfl, rfl, rfl, rfl⟩
        · simp [testBit_or_shift_self]
        · intro i hi
          simp [testBit_or_shift_ne _ _ _ hi]
        · intro j hj
          simp [hj]

/-- An all-zero RCC register file, for concrete witnesses. -/
def demo_regs : RccRegisters :=
  { cr := 0, pllcfgr := 0, cfgr := 0, cir := 0,
    ahb_rstr := fun _ => 0, apb_rstr := fun _ => 0,
    ahb_enr := fun _ => 0, apb_enr := fun _ => 0,
    ahb_lpenr := fun _ => 0, apb_lpenr := fun _ => 0,
    bdcr := 0, csr := 0, sscgr := 0, plli2scfgr := 0 }

/-- `demo_regs` after `enable_clock(GpioA)`. -/
def demo_regs_after : RccRegisters :=
  { demo_regs with ahb_enr := fun j =>
      if j = AhbPeripheral.GpioA.get_bus then
        demo_regs.ahb_enr j ||| (1 <<< AhbPeripheral.GpioA.get_bit_index)
      else demo_regs.ahb_enr j }

/-- Witness for C7: applied at `Sram1` (no ENR bit: the call panics) and
at `GpioA` on a concrete register file (the GPIOA ENR bit gets set). -/
theorem enable_clock_panic_iff_and_frame_witness :
    (AhbPeripheral.Sram1.enable_clock demo_regs = none ↔
      AhbPeripheral.Sram1.has_enr = false) ∧
    (demo_regs_after.ahb_enr AhbPeripheral.GpioA.get_bus).testBit
      AhbPeripheral.GpioA.get_bit_index = true :=
  ⟨(enable_clock_panic_iff_and_frame.1 .Sram1 demo_regs).1,
   ((enable_clock_panic_iff_and_frame.1 .GpioA demo_regs).2
      demo_regs_after rfl).1⟩

theorem ahb_prescaler_into_bits_lt_8 (d : AhbPrescaler) :
    d.into_bits < 2 ^ 3 := by
  cases d <;> decide

theorem ahb_prescaler_from_bits_total_into_bits (d : AhbPrescaler) :
    AhbPrescaler.from_bits_total d.into_bits = some d := by
  cases d <;> rfl

theorem apb_prescaler_into_bits_lt_4 (d : ApbPrescaler) :
    d.into_bits < 2 ^ 2 := by
  cases d <;> decide

theorem apb_prescaler_from_bits_total_into_bits (d : ApbPrescaler) :
    ApbPrescaler.from_bits_total d.into_bits = some d := by
  cases d <;> rfl

theorem mcopre_into_bits_lt_4 (d : McoPre) : d.into_bits < 2 ^ 2 := by
  cases d <;> decide

theorem mcopre_from_bits_total_into_bits (d : McoPre) :
    McoPre.from_bits_total d.into_bits = some d := by
  cases d <;> rfl

theorem replace_bit_frame (v b x i : Nat) (hb : b ≤ 31) (hv : v < 2 ^ 32)
    (hne : i ≠ b) : (bitfield_replace v b b x).testBit i = v.testBit i := by
  rw [testBit_bitfield_replace _ _ _ _ _ (le_refl b) hb, if_neg (by omega)]
  by_cases h2 : i < 32
  · simp [h2]
  · simp [h2, testBit_eq_false_of_lt_32 v i hv (by omega)]

theorem replace_bit_self_zero (v b : Nat) (hb : b ≤ 31) :
    (bitfield_replace v b b 0).testBit b = false := by
  rw [testBit_bitfield_replace _ _ _ _ _ (le_refl b) hb,
    if_pos ⟨le_refl b, le_refl b⟩]
  simp

theorem with_hpre_none_testBit (v i : Nat) (hv : v < 2 ^ 32) (hne : i ≠ 7) :
    (Cfgr.with_hpre v none).testBit i = v.testBit i :=
  replace_bit_frame v 7 _ i (by omega) hv hne

theorem with_hpre_none_en_bit (v : Nat) :
    (Cfgr.with_hpre v none).testBit 7 = false :=
  replace_bit_self_zero v 7 (by omega)

theorem get_hpre_with_none (v : Nat) :
    Cfgr.get_hpre (Cfgr.with_hpre v none) = some none := by
  show Cfgr.get_hpre (Cfgr.with_hpre_en v false) = some none
  unfold Cfgr.get_hpre Cfgr.get_hpre_en Cfgr.with_hpre_en
  rw [bitfield_extract_replace_of_lt _ 7 7 _ (by omega) (by omega)
    (by decide)]
  rfl

theorem get_hpre_with_some (v : Nat) (d : AhbPrescaler) :
    Cfgr.get_hpre (Cfgr.with_hpre v (some d)) = some (some d) := by
  show Cfgr.get_hpre (Cfgr.with_hpre_en (Cfgr.with_hpre_div v d) true)
      = some (some d)
  unfold Cfgr.get_hpre Cfgr.get_hpre_en Cfgr.get_hpre_div
    Cfgr.with_hpre_en Cfgr.with_hpre_div
  rw [bitfield_extract_replace_of_lt _ 7 7 _ (by omega) (by omega)
      (by decide),
    bitfield_extract_replace_disjoint _ 7 7 _ 6 4 (by omega) (by omega)
      (by omega) (by omega) (by omega),
    bitfield_extract_replace_of_lt _ 6 4 _ (by omega) (by omega)
      (ahb_prescaler_into_bits_lt_8 d),
    ahb_prescaler_from_bits_total_into_bits d]
  rfl

theorem with_ppre1_none_testBit (v i : Nat) (hv : v < 2 ^ 32)
    (hne : i ≠ 12) : (Cfgr.with_ppre1 v none).testBit i = v.testBit i :=
  replace_bit_frame v 12 _ i (by omega) hv hne

theorem with_ppre1_none_en_bit (v : Nat) :
    (Cfgr.with_ppre1 v none).testBit 12 = false :=
  replace_bit_self_zero v 12 (by omega)

theorem get_ppre1_with_none (v : Nat) :
    Cfgr.get_ppre1 (Cfgr.with_ppre1 v none) = some none := by
  show Cfgr.get_ppre1 (Cfgr.with_ppre1_en v false) = some none
  unfold Cfgr.get_ppre1 Cfgr.get_ppre1_en Cfgr.with_ppre1_en
  rw [bitfield_extract_replace_of_lt _ 12 12 _ (by omega) (by omega)
    (by decide)]
  rfl

theorem get_ppre1_with_some (v : Nat) (d : ApbPrescaler) :
    Cfgr.get_ppre1 (Cfgr.with_ppre1 v (some d)) = some (some d) := by
  show Cfgr.get_ppre1 (Cfgr.with_ppre1_en (Cfgr.with_ppre1_div v d) true)
      = some (some d)
  unfold Cfgr.get_ppre1 Cfgr.get_ppre1_en Cfgr.get_ppre1_div
    Cfgr.with_ppre1_en Cfgr.with_ppre1_div
  rw [bitfield_extract_replace_of_lt _ 12 12 _ (by omega) (by omega)
      (by decide),
    bitfield_extract_replace_disjoint _ 12 12 _ 11 10 (by omega) (by omega)
      (by omega) (by omega) (by omega),
    bitfield_extract_replace_of_lt _ 11 10 _ (by omega) (by omega)
      (apb_prescaler_into_bits_lt_4 d),
    apb_prescaler_from_bits_total_into_bits d]
  rfl

theorem with_ppre2_none_testBit (v i : Nat) (hv : v < 2 ^ 32)
    (hne : i ≠ 15) : (Cfgr.with_ppre2 v none).testBit i = v.testBit i :=
  replace_bit_frame v 15 _ i (by omega) hv hne

theorem with_ppre2_none_en_bit (v : Nat) :
    (Cfgr.with_ppre2 v none).testBit 15 = false :=
  replace_bit_self_zero v 15 (by omega)

theorem get_ppre2_with_none (v : Nat) :
    Cfgr.get_ppre2 (Cfgr.with_ppre2 v none) = some none := by
  show Cfgr.get_ppre2 (Cfgr.with_ppre2_en v false) = some none
  unfold Cfgr.get_ppre2 Cfgr.get_ppre2_en Cfgr.with_ppre2_en
  rw [bitfield_extract_replace_of_lt _ 15 15 _ (by omega) (by omega)
    (by decide)]
  rfl

theorem get_ppre2_with_some (v : Nat) (d : ApbPrescaler) :
    Cfgr.get_ppre2 (Cfgr.with_ppre2 v (some d)) = some (some d) := by
  show Cfgr.get_ppre2 (Cfgr.with_ppre2_en (Cfgr.with_ppre2_div v d) true)
      = some (some d)
  unfold Cfgr.get_ppre2 Cfgr.get_ppre2_en Cfgr.get_ppre2_div
    Cfgr.with_ppre2_en Cfgr.with_ppre2_div
  rw [bitfield_extract_replace_of_lt _ 15 15 _ (by omega) (by omega)
      (by decide),
    bitfield_extract_replace_disjoint _ 15 15 _ 14 13 (by omega) (by omega)
      (by omega) (by omega) (by omega),
    bitfield_extract_replace_of_lt _ 14 13 _ (by omega) (by omega)
      (apb_prescaler_into_bits_lt_4 d),
    apb_prescaler_from_bits_total_into_bits d]
  rfl

theorem with_mco1pre_none_testBit (v i : Nat) (hv : v < 2 ^ 32)
    (hne : i ≠ 26) : (Cfgr.with_mco1pre v none).testBit i = v.testBit i :=
  replace_bit_frame v 26 _ i (by omega) hv hne

theorem with_mco1pre_none_en_bit (v : Nat) :
    (Cfgr.with_mco1pre v none).testBit 26 = false :=
  replace_bit_self_zero v 26 (by omega)

theorem get_mco1pre_with_none (v : Nat) :
    Cfgr.get_mco1pre (Cfgr.with_mco1pre v none) = some none := by
  show Cfgr.get_mco1pre (Cfgr.with_mco1pre_en v false) = some none
  unfold Cfgr.get_mco1pre Cfgr.get_mco1pre_en Cfgr.with_mco1pre_en
  rw [bitfield_extract_replace_of_lt _ 26 26 _ (by omega) (by omega)
    (by decide)]
  rfl

theorem get_mco1pre_with_some (v : Nat) (d : McoPre) :
    Cfgr.get_mco1pre (Cfgr.with_mco1pre v (some d)) = some (some d) := by
  show Cfgr.get_mco1pre
      (Cfgr.with_mco1pre_en (Cfgr.with_mco1pre_div v d) true)
      = some (some d)
  unfold Cfgr.get_mco1pre Cfgr.get_mco1pre_en Cfgr.get_mco1pre_div
    Cfgr.with_mco1pre_en Cfgr.with_mco1pre_div
  rw [bitfield_extract_replace_of_lt _ 26 26 _ (by omega) (by omega)
      (by decide),
    bitfield_extract_replace_disjoint _ 26 26 _ 25 24 (by omega) (by omega)
      (by omega) (by omega) (by omega),
    bitfield_extract_replace_of_lt _ 25 24 _ (by omega) (by omega)
      (mcopre_into_bits_lt_4 d),
    mcopre_from_bits_total_into_bits d]
  rfl

theorem with_mco2pre_none_testBit (v i : Nat) (hv : v < 2 ^ 32)
    (hne : i ≠ 29) : (Cfgr.with_mco2pre v none).testBit i = v.testBit i :=
  replace_bit_frame v 29 _ i (by omega) hv hne

theorem with_mco2pre_none_en_bit (v : Nat) :
    (Cfgr.with_mco2pre v none).testBit 29 = false :=
  replace_bit_self_zero v 29 (by omega)

theorem get_mco2pre_with_none (v : Nat) :
    Cfgr.get_mco2pre (Cfgr.with_mco2pre v none) = some none := by
  show Cfgr.get_mco2pre (Cfgr.with_mco2pre_en v false) = some none
  unfold Cfgr.get_mco2pre Cfgr.get_mco2pre_en Cfgr.with_mco2pre_en
  rw [bitfield_extract_replace_of_lt _ 29 29 _ (by omega) (by omega)
    (by decide)]
  rfl

theorem get_mco2pre_with_some (v : Nat) (d : McoPre) :
    Cfgr.get_mco2pre (Cfgr.with_mco2pre v (some d)) = some (some d) := by
  show Cfgr.get_mco2pre
      (Cfgr.with_mco2pre_en (Cfgr.with_mco2pre_div v d) true)
      = some (some d)
  unfold Cfgr.get_mco2pre Cfgr.get_mco2pre_en Cfgr.get_mco2pre_div
    Cfgr.with_mco2pre_en Cfgr.with_mco2pre_div
  rw [bitfield_extract_replace_of_lt _ 29 29 _ (by omega) (by omega)
      (by decide),
    bitfield_extract_replace_disjoint _ 29 29 _ 28 27 (by omega) (by omega)
      (by omega) (by omega) (by omega),
    bitfield_extract_replace_of_lt _ 28 27 _ (by omega) (by omega)
      (mcopre_into_bits_lt_4 d),
    mcopre_from_bits_total_into_bits d]
  rfl

/-- C10: each optional-prescaler builder called with `None` clears only
its enable bit (the stale divisor bits and every other bit of the word
are unchanged), after which the getter reads `None` regardless of the
divisor bits left behind; and building with `Some d` makes the getter
read `Some d`. -/
theorem en_option_builder_none_frame (v : Nat) (hv : v < 2 ^ 32) :
    ((∀ i, i ≠ 7 → (Cfgr.with_hpre v none).testBit i = v.testBit i) ∧
      (Cfgr.with_hpre v none).testBit 7 = false ∧
      Cfgr.get_hpre (Cfgr.with_hpre v none) = some none ∧
      ∀ d, Cfgr.get_hpre (Cfgr.with_hpre v (some d)) = some (some d)) ∧
    ((∀ i, i ≠ 12 → (Cfgr.with_ppre1 v none).testBit i = v.testBit i) ∧
      (Cfgr.with_ppre1 v none).testBit 12 = false ∧
      Cfgr.get_ppre1 (Cfgr.with_ppre1 v none) = some none ∧
      ∀ d, Cfgr.get_ppre1 (Cfgr.with_ppre1 v (some d)) = some (some d)) ∧
    ((∀ i, i ≠ 15 → (Cfgr.with_ppre2 v none).testBit i = v.testBit i) ∧
      (Cfgr.with_ppre2 v none).testBit 15 = false ∧
      Cfgr.get_ppre2 (Cfgr.with_ppre2 v none) = some none ∧
      ∀ d, Cfgr.get_ppre2 (Cfgr.with_ppre2 v (some d)) = some (some d)) ∧
    ((∀ i, i ≠ 26 → (Cfgr.with_mco1pre v none).testBit i = v.testBit i) ∧
      (Cfgr.with_mco1pre v none).testBit 26 = false ∧
      Cfgr.get_mco1pre (Cfgr.with_mco1pre v none) = some none ∧
      ∀ d, Cfgr.get_mco1pre (Cfgr.with_mco1pre v (some d))
        = some (some d)) ∧
    ((∀ i, i ≠ 29 → (Cfgr.with_mco2pre v none).testBit i = v.testBit i) ∧
      (Cfgr.with_mco2pre v none).testBit 29 = false ∧
      Cfgr.get_mco2pre (Cfgr.with_mco2pre v none) = some none ∧
      ∀ d, Cfgr.get_mco2pre (Cfgr.with_mco2pre v (some d))
        = some (some d)) :=
  ⟨⟨fun i hi => with_hpre_none_testBit v i hv hi, with_hpre_none_en_bit v,
      get_hpre_with_none v, fun d => get_hpre_with_some v d⟩,
   ⟨fun i hi => with_ppre1_none_testBit v i hv hi, with_ppre1_none_en_bit v,
      get_ppre1_with_none v, fun d => get_ppre1_with_some v d⟩,
   ⟨fun i hi => with_ppre2_none_testBit v i hv hi, with_ppre2_none_en_bit v,
      get_ppre2_with_none v, fun d => get_ppre2_with_some v d⟩,
   ⟨fun i hi => with_mco1pre_none_testBit v i hv hi,
      with_mco1pre_none_en_bit v, get_mco1pre_with_none v,
      fun d => get_mco1pre_with_some v d⟩,
   ⟨fun i hi => with_mco2pre_none_testBit v i hv hi,
      with_mco2pre_none_en_bit v, get_mco2pre_with_none v,
      fun d => get_mco2pre_with_some v d⟩⟩

/-- Witness for C10: applied at a concrete word (all `CFGR` bits set), so
the divisor bits left behind are maximally stale, yet the getter reads
`None` after `with_hpre(None)`, and the divisor bit 6 survives. -/
theorem en_option_builder_none_frame_witness :
    Cfgr.get_hpre (Cfgr.with_hpre 0xFFFFFFFF none) = some none ∧
    (Cfgr.with_hpre 0xFFFFFFFF none).testBit 6
      = (0xFFFFFFFF : Nat).testBit 6 ∧
    Cfgr.get_ppre1 (Cfgr.with_ppre1 0xFFFFFFFF (some .Div4))
      = some (some .Div4) :=
  ⟨(en_option_builder_none_frame 0xFFFFFFFF (by norm_num)).1.2.2.1,
   (en_option_builder_none_frame 0xFFFFFFFF (by norm_num)).1.1 6
     (by omega),
   (en_option_builder_none_frame 0xFFFFFFFF (by norm_num)).2.1.2.2.2
     .Div4⟩


theorem testBit_or_or_shift_left (x y k : Nat) :
    ((x ||| (1 <<< k)) ||| y).testBit k = true := by
  have h1 : (1 : Nat) <<< k = 2 ^ k := by rw [Nat.shiftLeft_eq, one_mul]
  simp [Nat.testBit_or, h1, Nat.testBit_two_pow_self]

/-- C9: if foreground `enable_clock(A)` is preempted at any step boundary
of its exclusive load/store retry loop by a handler running
`enable_clock(B)` for a different peripheral on the same bus (so both
`atomic_or`s target the same clock-enable register, with masks
`1 << get_bit_index`), then after both complete, both enable bits are set
and no other bit of the register changed — neither update is lost. -/
theorem enable_clock_atomic_no_lost_update (a b : AhbPeripheral)
    (r0 k : Nat) (_hbus : a.get_bus = b.get_bus) (_ha : a.has_enr = true)
    (_hb : b.has_enr = true) (_hab : a ≠ b) :
    (enable_race (1 <<< a.get_bit_index) (1 <<< b.get_bit_index) r0 k).pc
      = .done ∧
    (enable_race (1 <<< a.get_bit_index) (1 <<< b.get_bit_index)
      r0 k).reg.testBit a.get_bit_index = true ∧
    (enable_race (1 <<< a.get_bit_index) (1 <<< b.get_bit_index)
      r0 k).reg.testBit b.get_bit_index = true ∧
    ∀ i, i ≠ a.get_bit_index → i ≠ b.get_bit_index →
      (enable_race (1 <<< a.get_bit_index) (1 <<< b.get_bit_index)
        r0 k).reg.testBit i = r0.testBit i := by
  obtain ⟨hdone, hreg⟩ :=
    enable_race_spec (1 <<< a.get_bit_index) (1 <<< b.get_bit_index) r0 k
  refine ⟨hdone, ?_, ?_, ?_⟩
  · rcases hreg with h | h <;> rw [h]
    · exact testBit_or_shift_self _ _
    · exact testBit_or_or_shift_left _ _ _
  · rcases hreg with h | h <;> rw [h]
    · exact testBit_or_or_shift_left _ _ _
    · exact testBit_or_shift_self _ _
  · intro i hia hib
    rcases hreg with h | h <;> rw [h]
    · rw [testBit_or_shift_ne _ _ _ hia, testBit_or_shift_ne _ _ _ hib]
    · rw [testBit_or_shift_ne _ _ _ hib, testBit_or_shift_ne _ _ _ hia]

/-- Witness for C9: `GpioA` preempted after its exclusive load by `GpioB`
on the same AHB1 enable register, starting from an all-zero register:
both bits 0 and 1 end up set. -/
theorem enable_clock_atomic_no_lost_update_witness :
    (enable_race (1 <<< AhbPeripheral.GpioA.get_bit_index)
      (1 <<< AhbPeripheral.GpioB.get_bit_index) 0 1).reg.testBit
      AhbPeripheral.GpioA.get_bit_index = true ∧
    (enable_race (1 <<< AhbPeripheral.GpioA.get_bit_index)
      (1 <<< AhbPeripheral.GpioB.get_bit_index) 0 1).reg.testBit
      AhbPeripheral.GpioB.get_bit_index = true :=
  ⟨(enable_clock_atomic_no_lost_update .GpioA .GpioB 0 1 rfl rfl rfl
      (by decide)).2.1,
   (enable_clock_atomic_no_lost_update .GpioA .GpioB 0 1 rfl rfl rfl
      (by decide)).2.2.1⟩

theorem testBit_replace_outside (v hi lo x i : Nat) (hlo : lo ≤ hi)
    (hhi : hi ≤ 31) (hout : i < lo ∨ hi < i) (h32 : i < 32) :
    (bitfield_replace v hi lo x).testBit i = v.testBit i := by
  rw [testBit_bitfield_replace _ _ _ _ _ hlo hhi, if_neg (by omega)]
  simp [h32]

theorem testBit_replace_inside (v hi lo x i : Nat) (hlo : lo ≤ hi)
    (hhi : hi ≤ 31) (hge : lo ≤ i) (hle : i ≤ hi) :
    (bitfield_replace v hi lo x).testBit i = x.testBit (i - lo) := by
  rw [testBit_bitfield_replace _ _ _ _ _ hlo hhi, if_pos ⟨hge, hle⟩]

theorem hw_cr_view_testBit24 (c : Nat) :
    (hw_cr_view c).testBit 24 = c.testBit 24 := by
  unfold hw_cr_view
  rw [testBit_replace_outside _ 25 25 _ 24 (by omega) (by omega) (by omega)
      (by omega),
    testBit_replace_outside _ 17 17 _ 24 (by omega) (by omega) (by omega)
      (by omega),
    testBit_replace_outside _ 1 1 _ 24 (by omega) (by omega) (by omega)
      (by omega)]

theorem step1_cr_testBit24 (s0 : Sys) :
    (step1_cr s0).testBit 24 = s0.cr.testBit 24 := by
  unfold step1_cr Cr.with_hsion
  rw [testBit_replace_outside _ 0 0 _ 24 (by omega) (by omega) (by omega)
      (by omega),
    hw_cr_view_testBit24]

theorem step3_cr_testBit24 (s0 : Sys) :
    (step3_cr s0).testBit 24 = false := by
  unfold step3_cr Cr.with_pllon
  rw [testBit_replace_inside _ 24 24 _ 24 (by omega) (by omega) (by omega)
    (by omega)]
  decide

theorem step6_cr_testBit24 (s0 : Sys) :
    (step6_cr s0).testBit 24 = false := by
  unfold step6_cr Cr.with_hseon
  rw [testBit_replace_outside _ 16 16 _ 24 (by omega) (by omega) (by omega)
      (by omega),
    hw_cr_view_testBit24]
  exact step3_cr_testBit24 s0

theorem step8_cr_testBit24 (s0 : Sys) :
    (step8_cr s0).testBit 24 = true := by
  unfold step8_cr Cr.with_pllon
  rw [testBit_replace_inside _ 24 24 _ 24 (by omega) (by omega) (by omega)
    (by omega)]
  decide

theorem hw_cfgr_view_low2 (c : Nat) :
    bitfield_extract (hw_cfgr_view c) 1 0 = bitfield_extract c 1 0 := by
  unfold hw_cfgr_view
  rw [bitfield_extract_replace_disjoint _ 3 2 _ 1 0 (by omega) (by omega)
    (by omega) (by omega) (by omega)]

theorem with_hpre_low2 (v : Nat) (o : Option AhbPrescaler) :
    bitfield_extract (Cfgr.with_hpre v o) 1 0 = bitfield_extract v 1 0 := by
  cases o with
  | none =>
    show bitfield_extract (Cfgr.with_hpre_en v false) 1 0 = _
    unfold Cfgr.with_hpre_en
    rw [bitfield_extract_replace_disjoint _ 7 7 _ 1 0 (by omega) (by omega)
      (by omega) (by omega) (by omega)]
  | some d =>
    show bitfield_extract
      (Cfgr.with_hpre_en (Cfgr.with_hpre_div v d) true) 1 0 = _
    unfold Cfgr.with_hpre_en Cfgr.with_hpre_div
    rw [bitfield_extract_replace_disjoint _ 7 7 _ 1 0 (by omega) (by omega)
        (by omega) (by omega) (by omega),
      bitfield_extract_replace_disjoint _ 6 4 _ 1 0 (by omega) (by omega)
        (by omega) (by omega) (by omega)]

theorem with_ppre1_low2 (v : Nat) (o : Option ApbPrescaler) :
    bitfield_extract (Cfgr.with_ppre1 v o) 1 0
      = bitfield_extract v 1 0 := by
  cases o with
  | none =>
    show bitfield_extract (Cfgr.with_ppre1_en v false) 1 0 = _
    unfold Cfgr.with_ppre1_en
    rw [bitfield_extract_replace_disjoint _ 12 12 _ 1 0 (by omega)
      (by omega) (by omega) (by omega) (by omega)]
  | some d =>
    show bitfield_extract
      (Cfgr.with_ppre1_en (Cfgr.with_ppre1_div v d) true) 1 0 = _
    unfold Cfgr.with_ppre1_en Cfgr.with_ppre1_div
    rw [bitfield_extract_replace_disjoint _ 12 12 _ 1 0 (by omega)
        (by omega) (by omega) (by omega) (by omega),
      bitfield_extract_replace_disjoint _ 11 10 _ 1 0 (by omega) (by omega)
        (by omega) (by omega) (by omega)]

theorem with_ppre2_low2 (v : Nat) (o : Option ApbPrescaler) :
    bitfield_extract (Cfgr.with_ppre2 v o) 1 0
      = bitfield_extract v 1 0 := by
  cases o with
  | none =>
    show bitfield_extract (Cfgr.with_ppre2_en v false) 1 0 = _
    unfold Cfgr.with_ppre2_en
    rw [bitfield_extract_replace_disjoint _ 15 15 _ 1 0 (by omega)
      (by omega) (by omega) (by omega) (by omega)]
  | some d =>
    show bitfield_extract
      (Cfgr.with_ppre2_en (Cfgr.with_ppre2_div v d) true) 1 0 = _
    unfold Cfgr.with_ppre2_en Cfgr.with_ppre2_div
    rw [bitfield_extract_replace_disjoint _ 15 15 _ 1 0 (by omega)
        (by omega) (by omega) (by omega) (by omega),
      bitfield_extract_replace_disjoint _ 14 13 _ 1 0 (by omega) (by omega)
        (by omega) (by omega) (by omega)]

theorem step2_cfgr_low2 (s0 : Sys) :
    bitfield_extract (step2_cfgr s0) 1 0 = ClockSwitch.Hsi.into_bits := by
  unfold step2_cfgr Cfgr.with_sw
  rw [bitfield_extract_replace_of_lt _ 1 0 _ (by omega) (by omega)
    (by decide)]

theorem step4_cfgr_low2 (cfg : ClockConfig) (s0 : Sys) :
    bitfield_extract (step4_cfgr cfg s0) 1 0
      = ClockSwitch.Hsi.into_bits := by
  unfold step4_cfgr
  rw [with_ppre2_low2, with_ppre1_low2, with_hpre_low2, hw_cfgr_view_low2]
  exact step2_cfgr_low2 s0

theorem step9_cfgr_low2 (cfg : ClockConfig) (s0 : Sys) :
    bitfield_extract (step9_cfgr cfg s0) 1 0
      = ClockSwitch.Pll.into_bits := by
  unfold step9_cfgr Cfgr.with_sw
  rw [bitfield_extract_replace_of_lt _ 1 0 _ (by omega) (by omega)
    (by decide)]

/-- A write event that is the `CFGR` write applying the configured
AHB/APB1/APB2 prescalers. -/
def applies_prescalers (cfg : ClockConfig) (e : WriteEv) : Prop :=
  e.reg = .cfgr ∧ ∃ v, e.new =
    Cfgr.with_ppre2 (Cfgr.with_ppre1 (Cfgr.with_hpre v cfg.ahb_divisor)
      cfg.apb1_divisor) cfg.apb2_divisor

/-- A write event that is the Flash `ACR` write applying the configured
wait-state latency. -/
def applies_latency (cfg : ClockConfig) (e : WriteEv) : Prop :=
  e.reg = .acr ∧ ∃ v, e.new = Acr.with_latency v cfg.flash_latency

/-- A write event that sets the PLL-enable bit: a `CR` write whose stored
value turns bit 24 (`PLLON`) from 0 to 1. -/
def sets_pll_enable (e : WriteEv) : Prop :=
  e.reg = .cr ∧ e.old.testBit 24 = false ∧ e.new.testBit 24 = true

/-- A write event that selects PLL as the system clock source: a `CFGR`
write whose stored SW field is the PLL encoding. -/
def selects_pll (e : WriteEv) : Prop :=
  e.reg = .cfgr ∧ bitfield_extract e.new 1 0 = ClockSwitch.Pll.into_bits

/-- C1: for every `ClockConfig` (and initial register state), the
sequence of register writes issued by `configure_clocks` contains the
`CFGR` write applying the AHB/APB1/APB2 prescalers and the Flash `ACR`
write applying the wait-state latency strictly before the unique `CR`
write that sets the PLL-enable bit, and that PLL-enable write strictly
before the unique `CFGR` write that selects PLL as the system clock
source. -/
theorem configure_clocks_write_ordering (cfg : ClockConfig) (s0 : Sys) :
    ∃ sF t, configure_clocks cfg s0 = some (sF, t) ∧
      ∃ i j k l, i < k ∧ j < k ∧ k < l ∧ l < t.length ∧
        applies_prescalers cfg (t.getD i ⟨.cr, 0, 0⟩) ∧
        applies_latency cfg (t.getD j ⟨.cr, 0, 0⟩) ∧
        sets_pll_enable (t.getD k ⟨.cr, 0, 0⟩) ∧
        selects_pll (t.getD l ⟨.cr, 0, 0⟩) ∧
        (∀ m, m < t.length →
          sets_pll_enable (t.getD m ⟨.cr, 0, 0⟩) → m = k) ∧
        (∀ m, m < t.length → selects_pll (t.getD m ⟨.cr, 0, 0⟩) → m = l) := by
  refine ⟨_, _, configure_clocks_eval cfg s0, 3, 4, 7, 8,
    by omega, by omega, by omega, by simp, ?_, ?_, ?_, ?_, ?_, ?_⟩
  · exact ⟨rfl, hw_cfgr_view (step2_cfgr s0), rfl⟩
  · exact ⟨rfl, s0.acr, rfl⟩
  · exact ⟨rfl, step6_cr_testBit24 s0, step8_cr_testBit24 s0⟩
  · exact ⟨rfl, step9_cfgr_low2 cfg s0⟩
  · intro m hm hset
    have hm9 : m < 9 := by simpa using hm
    interval_cases m
    · exfalso
      simp only [List.getD_cons_zero, sets_pll_enable] at hset
      obtain ⟨-, hold, hnew⟩ := hset
      rw [step1_cr_testBit24 s0] at hnew
      exact Bool.noConfusion (hold.symm.trans hnew)
    · exact absurd hset (by simp [sets_pll_enable])
    · exfalso
      simp only [List.getD_cons_succ, List.getD_cons_zero,
        sets_pll_enable] at hset
      obtain ⟨-, -, hnew⟩ := hset
      rw [step3_cr_testBit24 s0] at hnew
      exact Bool.noConfusion hnew
    · exact absurd hset (by simp [sets_pll_enable])
    · exact absurd hset (by simp [sets_pll_enable])
    · exfalso
      simp only [List.getD_cons_succ, List.getD_cons_zero,
        sets_pll_enable] at hset
      obtain ⟨-, -, hnew⟩ := hset
      rw [step6_cr_testBit24 s0] at hnew
      exact Bool.noConfusion hnew
    · exact absurd hset (by simp [sets_pll_enable])
    · rfl
    · exact absurd hset (by simp [sets_pll_enable])
  · intro m hm hsel
    have hm9 : m < 9 := by simpa using hm
    interval_cases m
    · exact absurd hsel (by simp [selects_pll])
    · exfalso
      simp only [List.getD_cons_succ, List.getD_cons_zero,
        selects_pll] at hsel
      obtain ⟨-, hbits⟩ := hsel
      rw [step2_cfgr_low2 s0] at hbits
      exact absurd hbits (by decide)
    · exact absurd hsel (by simp [selects_pll])
    · exfalso
      simp only [List.getD_cons_succ, List.getD_cons_zero,
        selects_pll] at hsel
      obtain ⟨-, hbits⟩ := hsel
      rw [step4_cfgr_low2 cfg s0] at hbits
      exact absurd hbits (by decide)
    · exact absurd hsel (by simp [selects_pll])
    · exact absurd hsel (by simp [selects_pll])
    · exact absurd hsel (by simp [selects_pll])
    · exact absurd hsel (by simp [selects_pll])
    · rfl

/-- The example `ClockConfig` from `src/main.rs` (`CLOCKS`). -/
def demo_clock_config : ClockConfig :=
  { crystal_hz := 8000000, crystal_divisor := 4, vco_multiplier := 160,
    general_divisor := .Div2, pll48_divisor := 4, ahb_divisor := none,
    apb1_divisor := some .Div4, apb2_divisor := some .Div2,
    flash_latency := 5 }

/-- The boot-time register state: `Sys` with reset values
(HSI on and ready is irrelevant to the trace; zeros suffice here). -/
def demo_sys : Sys := { cr := 0, cfgr := 0, pllcfgr := 0, acr := 0 }

/-- Witness for C1: the ordering theorem applied at the `main.rs` example
configuration and a concrete initial register state. -/
theorem configure_clocks_write_ordering_witness :
    ∃ sF t, configure_clocks demo_clock_config demo_sys = some (sF, t) ∧
      ∃ i j k l, i < k ∧ j < k ∧ k < l ∧ l < t.length ∧
        applies_prescalers demo_clock_config (t.getD i ⟨.cr, 0, 0⟩) ∧
        applies_latency demo_clock_config (t.getD j ⟨.cr, 0, 0⟩) ∧
        sets_pll_enable (t.getD k ⟨.cr, 0, 0⟩) ∧
        selects_pll (t.getD l ⟨.cr, 0, 0⟩) ∧
        (∀ m, m < t.length →
          sets_pll_enable (t.getD m ⟨.cr, 0, 0⟩) → m = k) ∧
        (∀ m, m < t.length →
          selects_pll (t.getD m ⟨.cr, 0, 0⟩) → m = l) :=
  configure_clocks_write_ordering demo_clock_config demo_sys

end Embrs
